import Mathlib

/-!
Shallow embedding of the ClusterExternalSecret reconciliation controller
(`pkg/controllers/clusterexternalsecret/clusterexternalsecret_controller.go`).

The controller projects one ExternalSecret template into every namespace
matched by a label selector, deletes the child from namespaces that no
longer match, and reports per-namespace failures plus an aggregate
condition in the parent's status.  The Kubernetes API is modelled as an
explicit store of child objects keyed by (namespace, name), with an
environment record supplying the outcome of the external calls that can
fail (parent fetch, selector conversion, namespace list, per-namespace
get/write/delete, status patch).
-/

namespace CES

/-- An owner reference carried by a child object; `controller` marks the
controlling owner (Kubernetes `OwnerReference.Controller`). -/
structure OwnerRef where
  owner : String
  controller : Bool
deriving DecidableEq

/-- Object metadata of an ExternalSecret child: name, target namespace,
labels, annotations and owner references. -/
structure ESMeta where
  name : String
  ns : String
  lbls : List (String × String)
  annots : List (String × String)
  ownerRefs : List OwnerRef
deriving DecidableEq

/-- A child ExternalSecret object: metadata plus an opaque spec template. -/
structure ExternalSecret where
  meta : ESMeta
  spec : String
deriving DecidableEq

/-- Labels and annotations stamped onto every child
(`Spec.ExternalSecretMetadata`). -/
structure ESMetadata where
  lbls : List (String × String)
  annots : List (String × String)
deriving DecidableEq

/-- One entry of `Status.FailedNamespaces`
(`ClusterExternalSecretNamespaceFailure`). -/
structure NamespaceFailure where
  ns : String
  reason : String
deriving DecidableEq

/-- The aggregate status condition (type, boolean status, message). -/
structure Condition where
  condType : String
  condStatus : Bool
  message : String
deriving DecidableEq

/-- The parent's status subresource. -/
structure CESStatus where
  provisionedNamespaces : List String
  failedNamespaces : List NamespaceFailure
  condition : Option Condition
deriving DecidableEq

/-- The parent's spec: optional child-name override, child metadata, the
opaque child spec template and an optional refresh interval. -/
structure CESSpec where
  externalSecretName : String
  externalSecretMetadata : ESMetadata
  externalSecretSpec : String
  refreshInterval : Option Nat
deriving DecidableEq

/-- A ClusterExternalSecret parent object. -/
structure ClusterExternalSecret where
  name : String
  spec : CESSpec
  status : CESStatus
deriving DecidableEq

/-- Error-message constants, verbatim from the controller source. -/
def errGetCES : String := "could not get ClusterExternalSecret"

def errPatchStatus : String := "unable to patch status"

def errConvertLabelSelector : String := "unable to convert labelselector"

def errNamespaces : String := "could not get namespaces from selector"

def errGetExistingES : String := "could not get existing ExternalSecret"

def errCreatingOrUpdating : String := "could not create or update ExternalSecret"

def errSetCtrlReference : String := "could not set the controller owner reference"

def errSecretAlreadyExists : String := "external secret already exists in namespace"

def errNamespacesFailed : String := "one or more namespaces failed"

def errFailedToDelete : String := "external secret in non matching namespace could not be deleted"

/-- The cluster state of child ExternalSecret objects, keyed by
(namespace, name). -/
abbrev Store := String → String → Option ExternalSecret

/-- Point update of the child store at key (namespace `n`, name `m`). -/
def Store.update (s : Store) (n m : String) (v : Option ExternalSecret) : Store :=
  fun a b => if a = n ∧ b = m then v else s a b

/-- Outcome of fetching the parent object at cycle start. -/
inductive FetchOutcome
  | found
  | notFound
  | fetchError
deriving DecidableEq

/-- Result of a `Get` call on the child collection. -/
inductive GetErr
  | notFound
  | other
deriving DecidableEq

/-- `apierrors.IsNotFound` on an optional get error (a `none` error is not
a not-found error). -/
def isNotFound : Option GetErr → Bool
  | some GetErr.notFound => true
  | _ => false

/-- The environment of one reconcile cycle: outcomes of the external API
calls that can fail, and the namespace list returned by the selector. -/
structure Env where
  fetch : FetchOutcome
  selectorFails : Bool
  listFails : Bool
  nsItems : List String
  getFails : String → Bool
  writeFails : String → Bool
  deleteFails : String → Bool
  patchFails : Bool

/-- Zero-valued child metadata, as left by a failed `Get` into a fresh
`PartialObjectMetadata`. -/
def zeroMeta : ESMeta :=
  { name := "", ns := "", lbls := [], annots := [], ownerRefs := [] }

/-- `getExternalSecret`: metadata-only get of the child named `esName` in
namespace `nsName`.  Returns the optional error and the fetched metadata
(zero-valued when the get did not succeed). -/
def getExternalSecret (env : Env) (store : Store) (nsName esName : String) :
    Option GetErr × ESMeta :=
  if env.getFails nsName then (some GetErr.other, zeroMeta)
  else
    match store nsName esName with
    | some es => (none, es.meta)
    | none => (some GetErr.notFound, zeroMeta)

/-- `checkForError`: classifies the result of fetching an existing child.
A non-not-found get error yields `errGetExistingES`; an existing child
with zero owner references yields `errSecretAlreadyExists`; otherwise the
empty string. -/
def checkForError (getError : Option GetErr) (existingES : ESMeta) : String :=
  if getError.isSome && !(isNotFound getError) then errGetExistingES
  else if !(isNotFound getError) && existingES.ownerRefs.isEmpty then errSecretAlreadyExists
  else ""

/-- `GetControllerOf`: the owner reference marked as controller, if any. -/
def getControllerOf (refs : List OwnerRef) : Option OwnerRef :=
  refs.find? (fun r => r.controller)

/-- Insert-or-replace of an owner reference for the same owner
(`controllerutil` upsert behaviour). -/
def upsertOwnerRef (r : OwnerRef) (refs : List OwnerRef) : List OwnerRef :=
  if refs.any (fun x => x.owner = r.owner) then
    refs.map (fun x => if x.owner = r.owner then r else x)
  else refs ++ [r]

/-- `controllerutil.SetControllerReference`: fails when the object already
has a controlling owner other than `parentName`, otherwise upserts a
controller owner reference to `parentName`. -/
def setControllerReference (parentName : String) (refs : List OwnerRef) :
    Except String (List OwnerRef) :=
  match getControllerOf refs with
  | some r =>
      if r.owner = parentName then
        Except.ok (upsertOwnerRef { owner := parentName, controller := true } refs)
      else Except.error errSetCtrlReference
  | none => Except.ok (upsertOwnerRef { owner := parentName, controller := true } refs)

/-- The effective child name (`esName` in `Reconcile`): the spec's
`externalSecretName` if non-empty, else the parent's own name. -/
def effectiveESName (parent : ClusterExternalSecret) : String :=
  if parent.spec.externalSecretName = "" then parent.name
  else parent.spec.externalSecretName

/-- `resolveExternalSecret`: ownership check on the fetched metadata, then
create-or-update of the desired child.  Returns the failure reason
(`none` on success) and the resulting store.  On the update path only the
spec of the stored child is overwritten, mirroring the mutate function. -/
def resolveExternalSecret (env : Env) (parent : ClusterExternalSecret) (existingES : ESMeta)
    (nsName esName : String) (esMetadata : ESMetadata) (store : Store) :
    Option String × Store :=
  match setControllerReference parent.name existingES.ownerRefs with
  | Except.error _ => (some errSetCtrlReference, store)
  | Except.ok _ =>
      let desiredMeta : ESMeta :=
        { name := esName, ns := nsName, lbls := esMetadata.lbls,
          annots := esMetadata.annots, ownerRefs := [] }
      match setControllerReference parent.name desiredMeta.ownerRefs with
      | Except.error _ => (some errSetCtrlReference, store)
      | Except.ok refs =>
          let desired : ExternalSecret :=
            { meta := { desiredMeta with ownerRefs := refs },
              spec := parent.spec.externalSecretSpec }
          if env.writeFails nsName then (some errCreatingOrUpdating, store)
          else
            match store nsName esName with
            | none => (none, store.update nsName esName (some desired))
            | some cur =>
                let mutated := { cur with spec := parent.spec.externalSecretSpec }
                if mutated = cur then (none, store)
                else (none, store.update nsName esName (some mutated))

/-- One iteration of the matched-namespace loop in `Reconcile`: get the
existing child, run `checkForError`, then `resolveExternalSecret`. -/
def syncNamespace (env : Env) (parent : ClusterExternalSecret) (esName : String) (store : Store)
    (nsName : String) : Option String × Store :=
  let g := getExternalSecret env store nsName esName
  let result := checkForError g.1 g.2
  if result = "" then
    resolveExternalSecret env parent g.2 nsName esName
      parent.spec.externalSecretMetadata store
  else (some result, store)

/-- `removeExternalSecret`: fetch the child; not-found succeeds silently;
a check failure is reported without deleting; otherwise delete (which may
itself fail).  Returns the failure reason recorded by the caller and the
resulting store. -/
def removeExternalSecret (env : Env) (store : Store) (esName nsName : String) :
    String × Store :=
  let g := getExternalSecret env store nsName esName
  if g.1.isSome && isNotFound g.1 then ("", store)
  else
    let result := checkForError g.1 g.2
    if result = "" then
      if env.deleteFails nsName then (errFailedToDelete, store)
      else ("", store.update nsName esName none)
    else (result, store)

/-- Go map assignment `m[k] = v` on an association list. -/
def mapInsert (m : List (String × String)) (k v : String) : List (String × String) :=
  if m.any (fun p => p.1 = k) then
    m.map (fun p => if p.1 = k then (k, v) else p)
  else m ++ [(k, v)]

/-- `getRemovedNamespaces`: the previously provisioned namespaces that are
no longer in the current namespace list. -/
def getRemovedNamespaces (nsItems : List String) (provisionedNs : List String) :
    List String :=
  provisionedNs.filter (fun ns => !(nsItems.contains ns))

/-- `removeOldNamespaces`: run `removeExternalSecret` over every removed
namespace, accumulating non-empty results in the failure map. -/
def removeOldNamespaces (env : Env) (store : Store) (nsItems : List String)
    (esName : String) (provisionedNs : List String) :
    List (String × String) × Store :=
  (getRemovedNamespaces nsItems provisionedNs).foldl
    (fun acc ns =>
      let r := removeExternalSecret env acc.2 esName ns
      (if r.1 = "" then acc.1 else mapInsert acc.1 ns r.1, r.2))
    ([], store)

/-- The matched-namespace loop of `Reconcile`: per namespace either record
a failure in the map or append the namespace to the provisioned list. -/
def syncLoop (env : Env) (parent : ClusterExternalSecret) (esName : String) :
    List String → List (String × String) → List String → Store →
    List (String × String) × List String × Store
  | [], failed, prov, store => (failed, prov, store)
  | nsName :: rest, failed, prov, store =>
      match syncNamespace env parent esName store nsName with
      | (some reason, store') =>
          syncLoop env parent esName rest (mapInsert failed nsName reason) prov store'
      | (none, store') =>
          syncLoop env parent esName rest failed (prov ++ [nsName]) store'

/-- `sort.Strings`: ascending lexicographic sort. -/
def sortStrings (l : List String) : List String :=
  l.insertionSort (fun a b => a ≤ b)

/-- `toNamespaceFailures`: the failure map as a list of failure entries
sorted ascending by namespace name. -/
def toNamespaceFailures (failed : List (String × String)) : List NamespaceFailure :=
  (failed.map (fun p => { ns := p.1, reason := p.2 })).insertionSort
    (fun a b => a.ns ≤ b.ns)

/-- Modelled from the spec: `NewClusterExternalSecretCondition` is not in
the sources (only its call site is).  Per the spec's Status Aggregator,
the condition succeeds exactly when the failure map is empty, and
otherwise fails with a message reporting the failure count relative to
the matched-namespace count. -/
def newCESCondition (failed : List (String × String)) (matchedCount : Nat) :
    Condition :=
  if failed.isEmpty then
    { condType := "Ready", condStatus := true, message := "" }
  else
    { condType := "Ready", condStatus := false,
      message := toString failed.length ++ " out of " ++ toString matchedCount
        ++ " " ++ errNamespacesFailed }

/-- The observable outcome of one reconcile cycle: final child store,
the parent's in-memory status, the returned requeue delay and error flag,
the status payloads of attempted patches, and the status actually
persisted by the patch (none when the patch failed or was not attempted). -/
structure ReconcileOut where
  store : Store
  status : CESStatus
  requeueAfter : Option Nat
  hasError : Bool
  patches : List CESStatus
  persisted : Option CESStatus

/-- `Reconcile`: one full cycle.  Mirrors the source control flow: parent
fetch, deferred status patch, effective interval, selector conversion,
namespace list, removal pass, matched-namespace loop, condition and
status assembly. -/
def Reconcile (cfg : Nat) (env : Env) (parent : ClusterExternalSecret) (store : Store) : ReconcileOut :=
  match env.fetch with
  | FetchOutcome.notFound =>
      { store := store, status := parent.status, requeueAfter := none,
        hasError := false, patches := [], persisted := none }
  | FetchOutcome.fetchError =>
      { store := store, status := parent.status, requeueAfter := none,
        hasError := false, patches := [], persisted := none }
  | FetchOutcome.found =>
      let refreshInt := parent.spec.refreshInterval.getD cfg
      if env.selectorFails then
        { store := store, status := parent.status,
          requeueAfter := some refreshInt, hasError := true,
          patches := [parent.status],
          persisted := if env.patchFails then none else some parent.status }
      else if env.listFails then
        { store := store, status := parent.status,
          requeueAfter := some refreshInt, hasError := true,
          patches := [parent.status],
          persisted := if env.patchFails then none else some parent.status }
      else
        let esName := effectiveESName parent
        let removal := removeOldNamespaces env store env.nsItems esName
          parent.status.provisionedNamespaces
        let loop := syncLoop env parent esName env.nsItems removal.1 [] removal.2
        let cond := newCESCondition loop.1 env.nsItems.length
        let finalStatus : CESStatus :=
          { provisionedNamespaces := sortStrings loop.2.1,
            failedNamespaces := toNamespaceFailures loop.1,
            condition := some cond }
        { store := loop.2.2, status := finalStatus,
          requeueAfter := some refreshInt, hasError := false,
          patches := [finalStatus],
          persisted := if env.patchFails then none else some finalStatus }

/-! ### Analysis layer: per-key outcome functions

Each namespace operation of the controller reads and writes the store only
at the key (namespace, effective child name).  The following pure
functions compute the same outcome from the current child value at that
key alone; agreement lemmas connect them to the store-passing
definitions above. -/

/-- The result of a child get, as a function of the current child value at
the key. -/
def getOutcome (env : Env) (nsName : String) (cur : Option ExternalSecret) :
    Option GetErr × ESMeta :=
  if env.getFails nsName then (some GetErr.other, zeroMeta)
  else
    match cur with
    | some es => (none, es.meta)
    | none => (some GetErr.notFound, zeroMeta)

/-- The outcome of `resolveExternalSecret`, as a function of the current
child value: failure reason and resulting child value at the key. -/
def resolveOutcome (env : Env) (parent : ClusterExternalSecret) (existingES : ESMeta)
    (nsName esName : String) (esMetadata : ESMetadata) (cur : Option ExternalSecret) :
    Option String × Option ExternalSecret :=
  match setControllerReference parent.name existingES.ownerRefs with
  | Except.error _ => (some errSetCtrlReference, cur)
  | Except.ok _ =>
      let desiredMeta : ESMeta :=
        { name := esName, ns := nsName, lbls := esMetadata.lbls,
          annots := esMetadata.annots, ownerRefs := [] }
      match setControllerReference parent.name desiredMeta.ownerRefs with
      | Except.error _ => (some errSetCtrlReference, cur)
      | Except.ok refs =>
          let desired : ExternalSecret :=
            { meta := { desiredMeta with ownerRefs := refs },
              spec := parent.spec.externalSecretSpec }
          if env.writeFails nsName then (some errCreatingOrUpdating, cur)
          else
            match cur with
            | none => (none, some desired)
            | some c => (none, some { c with spec := parent.spec.externalSecretSpec })

/-- The outcome of one matched-namespace iteration, as a function of the
current child value at the key. -/
def syncOutcome (env : Env) (parent : ClusterExternalSecret) (esName nsName : String)
    (cur : Option ExternalSecret) : Option String × Option ExternalSecret :=
  let g := getOutcome env nsName cur
  let result := checkForError g.1 g.2
  if result = "" then
    resolveOutcome env parent g.2 nsName esName parent.spec.externalSecretMetadata cur
  else (some result, cur)

/-- The outcome of `removeExternalSecret`, as a function of the current
child value at the key. -/
def removeOutcome (env : Env) (nsName : String) (cur : Option ExternalSecret) :
    String × Option ExternalSecret :=
  let g := getOutcome env nsName cur
  if g.1.isSome && isNotFound g.1 then ("", cur)
  else
    let result := checkForError g.1 g.2
    if result = "" then
      if env.deleteFails nsName then (errFailedToDelete, cur)
      else ("", none)
    else (result, cur)

theorem getExternalSecret_eq (env : Env) (store : Store) (n m : String) :
    getExternalSecret env store n m = getOutcome env n (store n m) := rfl

theorem resolveExternalSecret_fst (env : Env) (parent : ClusterExternalSecret)
    (existingES : ESMeta) (nsName esName : String) (esMetadata : ESMetadata)
    (store : Store) :
    (resolveExternalSecret env parent existingES nsName esName esMetadata store).1 =
      (resolveOutcome env parent existingES nsName esName esMetadata
        (store nsName esName)).1 := by
  unfold resolveExternalSecret resolveOutcome
  cases setControllerReference parent.name existingES.ownerRefs <;> simp
  cases setControllerReference parent.name ([] : List OwnerRef) <;> simp
  cases hw : env.writeFails nsName <;> simp
  cases hc : store nsName esName <;> simp
  split <;> simp

theorem resolveExternalSecret_snd (env : Env) (parent : ClusterExternalSecret)
    (existingES : ESMeta) (nsName esName : String) (esMetadata : ESMetadata)
    (store : Store) (a b : String) :
    (resolveExternalSecret env parent existingES nsName esName esMetadata store).2 a b =
      if a = nsName ∧ b = esName then
        (resolveOutcome env parent existingES nsName esName esMetadata
          (store nsName esName)).2
      else store a b := by
  by_cases hk : a = nsName ∧ b = esName
  · rw [if_pos hk]
    obtain ⟨rfl, rfl⟩ := hk
    unfold resolveExternalSecret resolveOutcome
    cases setControllerReference parent.name existingES.ownerRefs
    · rfl
    · dsimp only
      cases setControllerReference parent.name ([] : List OwnerRef)
      · rfl
      · dsimp only
        by_cases hw : env.writeFails a
        · rw [if_pos hw, if_pos hw]
        · rw [if_neg hw, if_neg hw]
          cases hc : store a b
          · simp [Store.update]
          · rename_i c
            dsimp only
            split
            · rename_i hmut
              show store a b = _
              rw [hc, hmut]
            · simp [Store.update]
  · rw [if_neg hk]
    unfold resolveExternalSecret
    cases setControllerReference parent.name existingES.ownerRefs
    · rfl
    · dsimp only
      cases setControllerReference parent.name ([] : List OwnerRef)
      · rfl
      · dsimp only
        by_cases hw : env.writeFails nsName
        · rw [if_pos hw]
        · rw [if_neg hw]
          cases hc : store nsName esName
          · simp [Store.update, if_neg hk]
          · dsimp only
            split
            · rfl
            · simp [Store.update, if_neg hk]

theorem syncNamespace_fst (env : Env) (parent : ClusterExternalSecret) (esName : String)
    (store : Store) (nsName : String) :
    (syncNamespace env parent esName store nsName).1 =
      (syncOutcome env parent esName nsName (store nsName esName)).1 := by
  unfold syncNamespace syncOutcome
  dsimp only
  rw [getExternalSecret_eq]
  by_cases hres : checkForError (getOutcome env nsName (store nsName esName)).1
      (getOutcome env nsName (store nsName esName)).2 = ""
  · rw [if_pos hres, if_pos hres]
    exact resolveExternalSecret_fst env parent _ nsName esName _ store
  · rw [if_neg hres, if_neg hres]

theorem syncNamespace_snd (env : Env) (parent : ClusterExternalSecret) (esName : String)
    (store : Store) (nsName : String) (a b : String) :
    (syncNamespace env parent esName store nsName).2 a b =
      if a = nsName ∧ b = esName then
        (syncOutcome env parent esName nsName (store nsName esName)).2
      else store a b := by
  unfold syncNamespace syncOutcome
  dsimp only
  rw [getExternalSecret_eq]
  by_cases hres : checkForError (getOutcome env nsName (store nsName esName)).1
      (getOutcome env nsName (store nsName esName)).2 = ""
  · rw [if_pos hres, if_pos hres]
    exact resolveExternalSecret_snd env parent _ nsName esName _ store a b
  · rw [if_neg hres, if_neg hres]
    dsimp only
    split
    · rename_i h
      rw [h.1, h.2]
    · rfl

theorem removeExternalSecret_fst (env : Env) (store : Store) (esName nsName : String) :
    (removeExternalSecret env store esName nsName).1 =
      (removeOutcome env nsName (store nsName esName)).1 := by
  unfold removeExternalSecret removeOutcome
  dsimp only
  rw [getExternalSecret_eq]
  split
  · rfl
  · by_cases hres : checkForError (getOutcome env nsName (store nsName esName)).1
        (getOutcome env nsName (store nsName esName)).2 = ""
    · rw [if_pos hres, if_pos hres]
      by_cases hd : env.deleteFails nsName
      · rw [if_pos hd, if_pos hd]
      · rw [if_neg hd, if_neg hd]
    · rw [if_neg hres, if_neg hres]

theorem removeExternalSecret_snd (env : Env) (store : Store) (esName nsName : String)
    (a b : String) :
    (removeExternalSecret env store esName nsName).2 a b =
      if a = nsName ∧ b = esName then
        (removeOutcome env nsName (store nsName esName)).2
      else store a b := by
  unfold removeExternalSecret removeOutcome
  dsimp only
  rw [getExternalSecret_eq]
  split
  · dsimp only
    split
    · rename_i h
      rw [h.1, h.2]
    · rfl
  · by_cases hres : checkForError (getOutcome env nsName (store nsName esName)).1
        (getOutcome env nsName (store nsName esName)).2 = ""
    · rw [if_pos hres, if_pos hres]
      by_cases hd : env.deleteFails nsName
      · rw [if_pos hd, if_pos hd]
        dsimp only
        split
        · rename_i h
          rw [h.1, h.2]
        · rfl
      · rw [if_neg hd, if_neg hd]
        simp [Store.update]
    · rw [if_neg hres, if_neg hres]
      dsimp only
      split
      · rename_i h
        rw [h.1, h.2]
      · rfl

/-- Recursive form of the removal pass, for analysis. -/
def removeLoop (env : Env) (esName : String) :
    List String → List (String × String) → Store → List (String × String) × Store
  | [], acc, store => (acc, store)
  | ns :: rest, acc, store =>
      let r := removeExternalSecret env store esName ns
      removeLoop env esName rest (if r.1 = "" then acc else mapInsert acc ns r.1) r.2

theorem removeOldNamespaces_eq (env : Env) (store : Store) (nsItems : List String)
    (esName : String) (provisionedNs : List String) :
    removeOldNamespaces env store nsItems esName provisionedNs =
      removeLoop env esName (getRemovedNamespaces nsItems provisionedNs) [] store := by
  unfold removeOldNamespaces
  generalize getRemovedNamespaces nsItems provisionedNs = l
  suffices h : ∀ (l : List String) (acc : List (String × String)) (s : Store),
      l.foldl (fun acc2 ns =>
        let r := removeExternalSecret env acc2.2 esName ns
        (if r.1 = "" then acc2.1 else mapInsert acc2.1 ns r.1, r.2)) (acc, s) =
      removeLoop env esName l acc s from h l [] store
  intro l
  induction l with
  | nil => intro acc s; rfl
  | cons ns rest ih =>
      intro acc s
      rw [List.foldl_cons]
      exact ih _ _

/-- A key appended to a map it is absent from is a plain append. -/
theorem mapInsert_fresh (m : List (String × String)) (k v : String)
    (h : k ∉ m.map Prod.fst) : mapInsert m k v = m ++ [(k, v)] := by
  unfold mapInsert
  rw [if_neg]
  intro hany
  rw [List.any_eq_true] at hany
  obtain ⟨p, hp, hpk⟩ := hany
  exact h (List.mem_map.mpr ⟨p, hp, of_decide_eq_true hpk⟩)

/-- Characterization of the removal pass: with distinct removed namespaces
whose keys are not yet in the failure map, the failure map gains exactly
one entry per removed namespace whose removal outcome is non-empty, and
the store changes exactly at the removed namespaces' child keys. -/
theorem removeLoop_spec (env : Env) (esName : String) :
    ∀ (l : List String) (acc : List (String × String)) (store : Store),
      l.Nodup →
      (∀ ns ∈ l, ns ∉ acc.map Prod.fst) →
      (removeLoop env esName l acc store).1 =
          acc ++ l.filterMap (fun ns =>
            let r := removeOutcome env ns (store ns esName)
            if r.1 = "" then none else some (ns, r.1)) ∧
        ∀ a b, (removeLoop env esName l acc store).2 a b =
          if a ∈ l ∧ b = esName then (removeOutcome env a (store a esName)).2
          else store a b := by
  intro l
  induction l with
  | nil =>
      intro acc store _ _
      refine ⟨by simp [removeLoop], fun a b => ?_⟩
      simp [removeLoop]
  | cons ns rest ih =>
      intro acc store hnd hfresh
      have hns_rest : ns ∉ rest := (List.nodup_cons.mp hnd).1
      have hrest_nd : rest.Nodup := (List.nodup_cons.mp hnd).2
      have hr1 : (removeExternalSecret env store esName ns).1 =
          (removeOutcome env ns (store ns esName)).1 :=
        removeExternalSecret_fst env store esName ns
      have hr2 : ∀ a b, (removeExternalSecret env store esName ns).2 a b =
          if a = ns ∧ b = esName then (removeOutcome env ns (store ns esName)).2
          else store a b :=
        removeExternalSecret_snd env store esName ns
      set acc' := if (removeExternalSecret env store esName ns).1 = "" then acc
        else mapInsert acc ns (removeExternalSecret env store esName ns).1 with hacc'
      have hstep : removeLoop env esName (ns :: rest) acc store =
          removeLoop env esName rest acc' (removeExternalSecret env store esName ns).2 := by
        rw [removeLoop]
      have hns_key : ns ∉ acc.map Prod.fst := hfresh ns (List.mem_cons_self ns rest)
      have hfresh' : ∀ n ∈ rest, n ∉ acc'.map Prod.fst := by
        intro n hn
        have hne : n ≠ ns := fun h => hns_rest (h ▸ hn)
        have hnacc : n ∉ acc.map Prod.fst :=
          hfresh n (List.mem_cons_of_mem ns hn)
        rw [hacc']
        split
        · exact hnacc
        · rw [mapInsert_fresh acc ns _ hns_key]
          simp only [List.map_append, List.mem_append, List.map_cons, List.map_nil,
            List.mem_singleton, not_or]
          exact ⟨hnacc, by simpa using hne⟩
      have hsame : ∀ n ∈ rest, (removeExternalSecret env store esName ns).2 n esName =
          store n esName := by
        intro n hn
        rw [hr2]
        rw [if_neg]
        rintro ⟨h1, _⟩
        exact hns_rest (h1 ▸ hn)
      obtain ⟨ihf, ihs⟩ := ih acc' (removeExternalSecret env store esName ns).2 hrest_nd hfresh'
      constructor
      · rw [hstep, ihf]
        have hcongr : rest.filterMap (fun n =>
            let r := removeOutcome env n ((removeExternalSecret env store esName ns).2 n esName)
            if r.1 = "" then none else some (n, r.1)) =
          rest.filterMap (fun n =>
            let r := removeOutcome env n (store n esName)
            if r.1 = "" then none else some (n, r.1)) := by
          apply List.filterMap_congr
          intro n hn
          rw [hsame n hn]
        rw [hcongr, List.filterMap_cons]
        rw [hacc']
        by_cases hres : (removeExternalSecret env store esName ns).1 = ""
        · rw [if_pos hres]
          rw [hr1] at hres
          simp only [hres, if_pos rfl]
          rfl
        · rw [if_neg hres]
          rw [mapInsert_fresh acc ns _ hns_key]
          rw [hr1] at hres ⊢
          simp only [if_neg hres]
          simp
      · intro a b
        rw [hstep, ihs a b]
        by_cases hmem : a ∈ rest ∧ b = esName
        · rw [if_pos hmem]
          have hane : a ≠ ns := fun h => hns_rest (h ▸ hmem.1)
          rw [hsame a hmem.1]
          rw [if_pos ⟨List.mem_cons_of_mem ns hmem.1, hmem.2⟩]
        · rw [if_neg hmem, hr2 a b]
          by_cases hkey : a = ns ∧ b = esName
          · rw [if_pos hkey, if_pos ⟨hkey.1 ▸ List.mem_cons_self ns rest, hkey.2⟩, hkey.1]
          · rw [if_neg hkey, if_neg]
            rintro ⟨hmem2, hb⟩
            rcases List.mem_cons.mp hmem2 with h | h
            · exact hkey ⟨h, hb⟩
            · exact hmem ⟨h, hb⟩

/-- Frame property of the removal pass, with no distinctness assumption:
keys outside the processed namespaces' child keys are untouched. -/
theorem removeLoop_frame (env : Env) (esName : String) :
    ∀ (l : List String) (acc : List (String × String)) (store : Store) (a b : String),
      ¬(a ∈ l ∧ b = esName) →
      (removeLoop env esName l acc store).2 a b = store a b := by
  intro l
  induction l with
  | nil => intro acc store a b _; rfl
  | cons ns rest ih =>
      intro acc store a b hnk
      have hrest : ¬(a ∈ rest ∧ b = esName) :=
        fun h => hnk ⟨List.mem_cons_of_mem ns h.1, h.2⟩
      have hkey : ¬(a = ns ∧ b = esName) :=
        fun h => hnk ⟨h.1 ▸ List.mem_cons_self ns rest, h.2⟩
      rw [removeLoop]
      rw [ih _ _ a b hrest]
      rw [removeExternalSecret_snd]
      rw [if_neg hkey]

/-- Frame property of the matched-namespace loop, with no distinctness
assumption. -/
theorem syncLoop_frame (env : Env) (parent : ClusterExternalSecret) (esName : String) :
    ∀ (l : List String) (failed : List (String × String)) (prov : List String)
      (store : Store) (a b : String),
      ¬(a ∈ l ∧ b = esName) →
      (syncLoop env parent esName l failed prov store).2.2 a b = store a b := by
  intro l
  induction l with
  | nil => intro failed prov store a b _; rfl
  | cons ns rest ih =>
      intro failed prov store a b hnk
      have hrest : ¬(a ∈ rest ∧ b = esName) :=
        fun h => hnk ⟨List.mem_cons_of_mem ns h.1, h.2⟩
      have hkey : ¬(a = ns ∧ b = esName) :=
        fun h => hnk ⟨h.1 ▸ List.mem_cons_self ns rest, h.2⟩
      rw [syncLoop]
      cases hsn : syncNamespace env parent esName store ns with
      | mk reason store' =>
          have hfr : store' a b = store a b := by
            have h2 : store' a b =
                if a = ns ∧ b = esName then
                  (syncOutcome env parent esName ns (store ns esName)).2
                else store a b := by
              have h3 := syncNamespace_snd env parent esName store ns a b
              rw [hsn] at h3
              exact h3
            rw [h2, if_neg hkey]
          cases reason with
          | some r => rw [ih _ _ _ a b hrest, hfr]
          | none => rw [ih _ _ _ a b hrest, hfr]

/-- Characterization of the matched-namespace loop: with distinct matched
namespaces whose keys are absent from the failure map, the failure map
gains one entry per failing namespace, the provisioned list gains the
succeeding namespaces in processing order, and the store changes exactly
at the matched namespaces' child keys, as a function of each key's own
initial value. -/
theorem syncLoop_spec (env : Env) (parent : ClusterExternalSecret) (esName : String) :
    ∀ (l : List String) (failed : List (String × String)) (prov : List String)
      (store : Store),
      l.Nodup →
      (∀ ns ∈ l, ns ∉ failed.map Prod.fst) →
      (syncLoop env parent esName l failed prov store).1 =
          failed ++ l.filterMap (fun ns =>
            match (syncOutcome env parent esName ns (store ns esName)).1 with
            | some r => some (ns, r)
            | none => none) ∧
        (syncLoop env parent esName l failed prov store).2.1 =
          prov ++ l.filter (fun ns =>
            ((syncOutcome env parent esName ns (store ns esName)).1).isNone) ∧
        ∀ a b, (syncLoop env parent esName l failed prov store).2.2 a b =
          if a ∈ l ∧ b = esName then (syncOutcome env parent esName a (store a esName)).2
          else store a b := by
  intro l
  induction l with
  | nil =>
      intro failed prov store _ _
      exact ⟨by simp [syncLoop], by simp [syncLoop], fun a b => by simp [syncLoop]⟩
  | cons ns rest ih =>
      intro failed prov store hnd hfresh
      have hns_rest : ns ∉ rest := (List.nodup_cons.mp hnd).1
      have hrest_nd : rest.Nodup := (List.nodup_cons.mp hnd).2
      have hns_key : ns ∉ failed.map Prod.fst := hfresh ns (List.mem_cons_self ns rest)
      cases hsn : syncNamespace env parent esName store ns with
      | mk reason store' =>
          have hr1 : reason = (syncOutcome env parent esName ns (store ns esName)).1 := by
            have := syncNamespace_fst env parent esName store ns
            rw [hsn] at this
            exact this
          have hr2 : ∀ a b, store' a b =
              if a = ns ∧ b = esName then (syncOutcome env parent esName ns (store ns esName)).2
              else store a b := by
            intro a b
            have := syncNamespace_snd env parent esName store ns a b
            rw [hsn] at this
            exact this
          have hsame : ∀ n ∈ rest, store' n esName = store n esName := by
            intro n hn
            rw [hr2, if_neg]
            rintro ⟨h1, _⟩
            exact hns_rest (h1 ▸ hn)
          have hfmcongr : rest.filterMap (fun n =>
              match (syncOutcome env parent esName n (store' n esName)).1 with
              | some r => some (n, r)
              | none => none) =
            rest.filterMap (fun n =>
              match (syncOutcome env parent esName n (store n esName)).1 with
              | some r => some (n, r)
              | none => none) := by
            apply List.filterMap_congr
            intro n hn
            rw [hsame n hn]
          have hfcongr : rest.filter (fun n =>
              ((syncOutcome env parent esName n (store' n esName)).1).isNone) =
            rest.filter (fun n =>
              ((syncOutcome env parent esName n (store n esName)).1).isNone) := by
            apply List.filter_congr
            intro n hn
            rw [hsame n hn]
          have hstorespec : ∀ (failed2 : List (String × String)) (prov2 : List String),
              (∀ n ∈ rest, n ∉ failed2.map Prod.fst) →
              ∀ a b, (syncLoop env parent esName rest failed2 prov2 store').2.2 a b =
                if a ∈ ns :: rest ∧ b = esName then
                  (syncOutcome env parent esName a (store a esName)).2
                else store a b := by
            intro failed2 prov2 hf2 a b
            obtain ⟨_, _, ihs⟩ := ih failed2 prov2 store' hrest_nd hf2
            rw [ihs a b]
            by_cases hmem : a ∈ rest ∧ b = esName
            · rw [if_pos hmem, hsame a hmem.1,
                if_pos ⟨List.mem_cons_of_mem ns hmem.1, hmem.2⟩]
            · rw [if_neg hmem, hr2 a b]
              by_cases hkey : a = ns ∧ b = esName
              · rw [if_pos hkey, if_pos ⟨hkey.1 ▸ List.mem_cons_self ns rest, hkey.2⟩,
                  hkey.1]
              · rw [if_neg hkey, if_neg]
                rintro ⟨hmem2, hb⟩
                rcases List.mem_cons.mp hmem2 with h | h
                · exact hkey ⟨h, hb⟩
                · exact hmem ⟨h, hb⟩
          cases reason with
          | some r =>
              have hstep : syncLoop env parent esName (ns :: rest) failed prov store =
                  syncLoop env parent esName rest (mapInsert failed ns r) prov store' := by
                rw [syncLoop, hsn]
              have hfresh2 : ∀ n ∈ rest, n ∉ (mapInsert failed ns r).map Prod.fst := by
                intro n hn
                rw [mapInsert_fresh failed ns r hns_key]
                simp only [List.map_append, List.mem_append, List.map_cons, List.map_nil,
                  List.mem_singleton, not_or]
                have hne : n ≠ ns := fun h => hns_rest (h ▸ hn)
                exact ⟨hfresh n (List.mem_cons_of_mem ns hn), by simpa using hne⟩
              obtain ⟨ihf, ihp, _⟩ := ih (mapInsert failed ns r) prov store' hrest_nd hfresh2
              refine ⟨?_, ?_, ?_⟩
              · rw [hstep, ihf, hfmcongr, List.filterMap_cons, ← hr1,
                  mapInsert_fresh failed ns r hns_key]
                simp
              · rw [hstep, ihp, hfcongr, List.filter_cons, ← hr1]
                simp
              · intro a b
                rw [hstep]
                exact hstorespec (mapInsert failed ns r) prov hfresh2 a b
          | none =>
              have hstep : syncLoop env parent esName (ns :: rest) failed prov store =
                  syncLoop env parent esName rest failed (prov ++ [ns]) store' := by
                rw [syncLoop, hsn]
              have hfresh2 : ∀ n ∈ rest, n ∉ failed.map Prod.fst :=
                fun n hn => hfresh n (List.mem_cons_of_mem ns hn)
              obtain ⟨ihf, ihp, _⟩ := ih failed (prov ++ [ns]) store' hrest_nd hfresh2
              refine ⟨?_, ?_, ?_⟩
              · rw [hstep, ihf, hfmcongr, List.filterMap_cons, ← hr1]
              · rw [hstep, ihp, hfcongr, List.filter_cons, ← hr1]
                simp
              · intro a b
                rw [hstep]
                exact hstorespec failed (prov ++ [ns]) hfresh2 a b

/-- The removal pass performed by the normal path of `Reconcile`
(analysis abbreviation). -/
def cycleRemoval (env : Env) (parent : ClusterExternalSecret) (store : Store) :
    List (String × String) × Store :=
  removeOldNamespaces env store env.nsItems (effectiveESName parent)
    parent.status.provisionedNamespaces

/-- The matched-namespace loop performed by the normal path of `Reconcile`
(analysis abbreviation). -/
def cycleLoop (env : Env) (parent : ClusterExternalSecret) (store : Store) :
    List (String × String) × List String × Store :=
  syncLoop env parent (effectiveESName parent) env.nsItems
    (cycleRemoval env parent store).1 [] (cycleRemoval env parent store).2

/-- The child store left by the normal path of `Reconcile` (analysis
abbreviation: removal pass followed by the matched-namespace loop). -/
def cycleStore (env : Env) (parent : ClusterExternalSecret) (store : Store) : Store :=
  (cycleLoop env parent store).2.2

/-- The status assembled by the normal path of `Reconcile` (analysis
abbreviation). -/
def cycleStatus (env : Env) (parent : ClusterExternalSecret) (store : Store) : CESStatus :=
  { provisionedNamespaces := sortStrings (cycleLoop env parent store).2.1,
    failedNamespaces := toNamespaceFailures (cycleLoop env parent store).1,
    condition := some (newCESCondition (cycleLoop env parent store).1 env.nsItems.length) }

/-- On the normal path (parent fetched, selector converted, namespaces
listed), `Reconcile` returns the assembled cycle store and status, a
requeue after the effective interval, no error, and one patch attempt
carrying the final status. -/
theorem Reconcile_normal (cfg : Nat) (env : Env) (parent : ClusterExternalSecret)
    (store : Store) (hf : env.fetch = FetchOutcome.found)
    (hs : env.selectorFails = false) (hl : env.listFails = false) :
    Reconcile cfg env parent store =
      { store := cycleStore env parent store,
        status := cycleStatus env parent store,
        requeueAfter := some (parent.spec.refreshInterval.getD cfg),
        hasError := false,
        patches := [cycleStatus env parent store],
        persisted := if env.patchFails then none
          else some (cycleStatus env parent store) } := by
  unfold Reconcile cycleStore cycleStatus cycleLoop cycleRemoval
  rw [hf, hs, hl]
  rfl

theorem Reconcile_selectorFail (cfg : Nat) (env : Env) (parent : ClusterExternalSecret)
    (store : Store) (hf : env.fetch = FetchOutcome.found)
    (hs : env.selectorFails = true) :
    Reconcile cfg env parent store =
      { store := store, status := parent.status,
        requeueAfter := some (parent.spec.refreshInterval.getD cfg),
        hasError := true, patches := [parent.status],
        persisted := if env.patchFails then none else some parent.status } := by
  unfold Reconcile
  rw [hf, hs]
  rfl

theorem Reconcile_listFail (cfg : Nat) (env : Env) (parent : ClusterExternalSecret)
    (store : Store) (hf : env.fetch = FetchOutcome.found)
    (hs : env.selectorFails = false) (hl : env.listFails = true) :
    Reconcile cfg env parent store =
      { store := store, status := parent.status,
        requeueAfter := some (parent.spec.refreshInterval.getD cfg),
        hasError := true, patches := [parent.status],
        persisted := if env.patchFails then none else some parent.status } := by
  unfold Reconcile
  rw [hf, hs, hl]
  rfl

instance : IsTotal NamespaceFailure (fun a b => a.ns ≤ b.ns) :=
  ⟨fun a b => le_total a.ns b.ns⟩

instance : IsTrans NamespaceFailure (fun a b => a.ns ≤ b.ns) :=
  ⟨fun _ _ _ h h2 => le_trans h h2⟩

theorem sortStrings_sorted (l : List String) :
    (sortStrings l).Sorted (fun a b => a ≤ b) :=
  List.sorted_insertionSort _ l

theorem sortStrings_perm (l : List String) : List.Perm (sortStrings l) l :=
  List.perm_insertionSort _ l

theorem toNamespaceFailures_sorted (failed : List (String × String)) :
    (toNamespaceFailures failed).Sorted (fun a b => a.ns ≤ b.ns) :=
  List.sorted_insertionSort _ _

theorem toNamespaceFailures_perm (failed : List (String × String)) :
    List.Perm (toNamespaceFailures failed)
      (failed.map (fun p => { ns := p.1, reason := p.2 })) :=
  List.perm_insertionSort _ _

/-! ### Congruence lemmas

The per-namespace operations read the environment only through its
per-namespace error oracles, and the parent only through its name and
spec; the loops therefore commute with changes to the remaining fields. -/

theorem syncNamespace_congr (env1 env2 : Env) (parent1 parent2 : ClusterExternalSecret)
    (esName : String) (store : Store) (ns : String)
    (hg : env1.getFails = env2.getFails) (hw : env1.writeFails = env2.writeFails)
    (hn : parent1.name = parent2.name) (hsp : parent1.spec = parent2.spec) :
    syncNamespace env1 parent1 esName store ns =
      syncNamespace env2 parent2 esName store ns := by
  unfold syncNamespace getExternalSecret resolveExternalSecret
  rw [hg, hw, hn, hsp]

theorem removeExternalSecret_congr (env1 env2 : Env) (store : Store)
    (esName ns : String)
    (hg : env1.getFails = env2.getFails) (hd : env1.deleteFails = env2.deleteFails) :
    removeExternalSecret env1 store esName ns =
      removeExternalSecret env2 store esName ns := by
  unfold removeExternalSecret getExternalSecret
  rw [hg, hd]

theorem syncLoop_congr (env1 env2 : Env) (parent1 parent2 : ClusterExternalSecret)
    (esName : String)
    (hg : env1.getFails = env2.getFails) (hw : env1.writeFails = env2.writeFails)
    (hn : parent1.name = parent2.name) (hsp : parent1.spec = parent2.spec) :
    ∀ (l : List String) (failed : List (String × String)) (prov : List String)
      (store : Store),
      syncLoop env1 parent1 esName l failed prov store =
        syncLoop env2 parent2 esName l failed prov store := by
  intro l
  induction l with
  | nil => intro failed prov store; rfl
  | cons ns rest ih =>
      intro failed prov store
      rw [syncLoop, syncLoop,
        syncNamespace_congr env1 env2 parent1 parent2 esName store ns hg hw hn hsp]
      cases syncNamespace env2 parent2 esName store ns with
      | mk reason store' => cases reason <;> exact ih _ _ _

theorem removeLoop_congr (env1 env2 : Env) (esName : String)
    (hg : env1.getFails = env2.getFails) (hd : env1.deleteFails = env2.deleteFails) :
    ∀ (l : List String) (acc : List (String × String)) (store : Store),
      removeLoop env1 esName l acc store = removeLoop env2 esName l acc store := by
  intro l
  induction l with
  | nil => intro acc store; rfl
  | cons ns rest ih =>
      intro acc store
      rw [removeLoop, removeLoop,
        removeExternalSecret_congr env1 env2 store esName ns hg hd]
      exact ih _ _

theorem removeOldNamespaces_congr (env1 env2 : Env) (store : Store)
    (nsItems1 nsItems2 : List String) (esName : String) (prov : List String)
    (hg : env1.getFails = env2.getFails) (hd : env1.deleteFails = env2.deleteFails)
    (hitems : getRemovedNamespaces nsItems1 prov = getRemovedNamespaces nsItems2 prov) :
    removeOldNamespaces env1 store nsItems1 esName prov =
      removeOldNamespaces env2 store nsItems2 esName prov := by
  rw [removeOldNamespaces_eq, removeOldNamespaces_eq, hitems,
    removeLoop_congr env1 env2 esName hg hd]

/-! ### Key-tracking lemmas for the failure maps -/

theorem mapInsert_keys (m : List (String × String)) (k v : String) (x : String)
    (hx : x ∈ (mapInsert m k v).map Prod.fst) : x ∈ m.map Prod.fst ∨ x = k := by
  unfold mapInsert at hx
  split at hx
  · rw [List.map_map] at hx
    obtain ⟨p, hp, hpx⟩ := List.mem_map.mp hx
    by_cases hpk : p.1 = k
    · right
      simpa [Function.comp, hpk] using hpx.symm
    · left
      refine List.mem_map.mpr ⟨p, hp, ?_⟩
      simpa [Function.comp, hpk] using hpx
  · rw [List.map_append] at hx
    rcases List.mem_append.mp hx with h | h
    · exact Or.inl h
    · right
      simpa using h

theorem mapInsert_keys_nodup (m : List (String × String)) (k v : String)
    (hm : (m.map Prod.fst).Nodup) : ((mapInsert m k v).map Prod.fst).Nodup := by
  unfold mapInsert
  split <;> rename_i hmem
  · have : (m.map (fun p => if p.1 = k then (k, v) else p)).map Prod.fst =
        m.map Prod.fst := by
      rw [List.map_map]
      apply List.map_congr_left
      intro p _
      by_cases hpk : p.1 = k
      · simp [Function.comp, hpk]
      · simp [Function.comp, hpk]
    rw [this]
    exact hm
  · rw [List.map_append]
    simp only [List.map_cons, List.map_nil]
    rw [List.nodup_append]
    refine ⟨hm, List.nodup_singleton k, ?_⟩
    intro x hx hxk
    rw [List.mem_singleton] at hxk
    subst hxk
    exact hmem (by
      rw [List.any_eq_true]
      obtain ⟨p, hp, hpx⟩ := List.mem_map.mp hx
      exact ⟨p, hp, by simp [hpx]⟩)

theorem removeLoop_keys (env : Env) (esName : String) :
    ∀ (l : List String) (acc : List (String × String)) (store : Store) (x : String),
      x ∈ ((removeLoop env esName l acc store).1).map Prod.fst →
      x ∈ acc.map Prod.fst ∨ x ∈ l := by
  intro l
  induction l with
  | nil => intro acc store x hx; exact Or.inl hx
  | cons ns rest ih =>
      intro acc store x hx
      rw [removeLoop] at hx
      rcases ih _ _ x hx with h | h
      · revert h
        split
        · exact fun h => Or.inl h
        · intro h
          rcases mapInsert_keys acc ns _ x h with h2 | h2
          · exact Or.inl h2
          · exact Or.inr (h2 ▸ List.mem_cons_self ns rest)
      · exact Or.inr (List.mem_cons_of_mem ns h)

theorem removeLoop_keys_nodup (env : Env) (esName : String) :
    ∀ (l : List String) (acc : List (String × String)) (store : Store),
      (acc.map Prod.fst).Nodup →
      (((removeLoop env esName l acc store).1).map Prod.fst).Nodup := by
  intro l
  induction l with
  | nil => intro acc store hacc; exact hacc
  | cons ns rest ih =>
      intro acc store hacc
      rw [removeLoop]
      apply ih
      split
      · exact hacc
      · exact mapInsert_keys_nodup acc ns _ hacc

theorem syncLoop_keys_nodup (env : Env) (parent : ClusterExternalSecret)
    (esName : String) :
    ∀ (l : List String) (failed : List (String × String)) (prov : List String)
      (store : Store),
      (failed.map Prod.fst).Nodup →
      (((syncLoop env parent esName l failed prov store).1).map Prod.fst).Nodup := by
  intro l
  induction l with
  | nil => intro failed prov store hacc; exact hacc
  | cons ns rest ih =>
      intro failed prov store hacc
      rw [syncLoop]
      cases syncNamespace env parent esName store ns with
      | mk reason store' =>
          cases reason with
          | some r => exact ih _ _ _ (mapInsert_keys_nodup failed ns r hacc)
          | none => exact ih _ _ _ hacc

theorem mem_getRemovedNamespaces (nsItems provisionedNs : List String) (ns : String) :
    ns ∈ getRemovedNamespaces nsItems provisionedNs ↔
      ns ∈ provisionedNs ∧ ns ∉ nsItems := by
  unfold getRemovedNamespaces
  simp [List.mem_filter]

theorem getRemovedNamespaces_perm (nsItems1 nsItems2 provisionedNs : List String)
    (h : List.Perm nsItems1 nsItems2) :
    getRemovedNamespaces nsItems1 provisionedNs =
      getRemovedNamespaces nsItems2 provisionedNs := by
  unfold getRemovedNamespaces
  apply List.filter_congr
  intro ns _
  have hiff : ns ∈ nsItems1 ↔ ns ∈ nsItems2 := h.mem_iff
  by_cases hm : ns ∈ nsItems1
  · have hm2 : ns ∈ nsItems2 := hiff.mp hm
    rw [← List.elem_iff] at hm hm2
    rw [show nsItems1.contains ns = true from hm,
      show nsItems2.contains ns = true from hm2]
  · have hm2 : ns ∉ nsItems2 := fun hmm => hm (hiff.mpr hmm)
    rw [← List.elem_iff] at hm hm2
    have hc1 : nsItems1.contains ns = false := by
      cases helem : List.elem ns nsItems1 with
      | false => exact helem
      | true => exact absurd helem hm
    have hc2 : nsItems2.contains ns = false := by
      cases helem : List.elem ns nsItems2 with
      | false => exact helem
      | true => exact absurd helem hm2
    rw [hc1, hc2]

/-- The child object created by a successful create path: the desired
metadata with the parent set as controlling owner, and the parent's
template as spec. -/
def desiredChild (parent : ClusterExternalSecret) (esName nsName : String) :
    ExternalSecret :=
  { meta := { name := esName, ns := nsName,
              lbls := parent.spec.externalSecretMetadata.lbls,
              annots := parent.spec.externalSecretMetadata.annots,
              ownerRefs := [{ owner := parent.name, controller := true }] },
    spec := parent.spec.externalSecretSpec }

/-! ### Evaluation lemmas for the per-key outcomes -/

theorem syncOutcome_getFails (env : Env) (parent : ClusterExternalSecret)
    (esName nsName : String) (cur : Option ExternalSecret)
    (hget : env.getFails nsName = true) :
    syncOutcome env parent esName nsName cur = (some errGetExistingES, cur) := by
  unfold syncOutcome getOutcome
  rw [hget]
  rfl

theorem syncOutcome_create_fail (env : Env) (parent : ClusterExternalSecret)
    (esName nsName : String) (hget : env.getFails nsName = false)
    (hw : env.writeFails nsName = true) :
    syncOutcome env parent esName nsName none = (some errCreatingOrUpdating, none) := by
  unfold syncOutcome getOutcome resolveOutcome
  rw [hget]
  simp only [Bool.false_eq_true, if_false]
  rw [show setControllerReference parent.name ([] : List OwnerRef) =
    Except.ok [{ owner := parent.name, controller := true }] from rfl]
  dsimp only
  rw [hw]
  rfl

theorem syncOutcome_create (env : Env) (parent : ClusterExternalSecret)
    (esName nsName : String) (hget : env.getFails nsName = false)
    (hw : env.writeFails nsName = false) :
    syncOutcome env parent esName nsName none =
      (none, some (desiredChild parent esName nsName)) := by
  unfold syncOutcome getOutcome resolveOutcome desiredChild
  rw [hget]
  simp only [Bool.false_eq_true, if_false]
  rw [show setControllerReference parent.name ([] : List OwnerRef) =
    Except.ok [{ owner := parent.name, controller := true }] from rfl]
  dsimp only
  rw [hw]
  rfl

theorem syncOutcome_conflict (env : Env) (parent : ClusterExternalSecret)
    (esName nsName : String) (c : ExternalSecret)
    (hget : env.getFails nsName = false) (hown : c.meta.ownerRefs = []) :
    syncOutcome env parent esName nsName (some c) =
      (some errSecretAlreadyExists, some c) := by
  unfold syncOutcome getOutcome checkForError
  rw [hget]
  simp only [Bool.false_eq_true, if_false]
  rw [hown]
  rfl

theorem syncOutcome_foreign_controller (env : Env) (parent : ClusterExternalSecret)
    (esName nsName : String) (c : ExternalSecret)
    (hget : env.getFails nsName = false) (hown : ¬c.meta.ownerRefs.isEmpty = true)
    (hsc : ∀ refs, setControllerReference parent.name c.meta.ownerRefs ≠ Except.ok refs) :
    syncOutcome env parent esName nsName (some c) =
      (some errSetCtrlReference, some c) := by
  unfold syncOutcome getOutcome checkForError resolveOutcome
  rw [hget]
  simp only [Bool.false_eq_true, if_false]
  rw [Bool.not_eq_true] at hown
  rw [hown]
  cases hsc2 : setControllerReference parent.name c.meta.ownerRefs with
  | error e => rfl
  | ok refs => exact absurd hsc2 (hsc refs)

theorem syncOutcome_owned_write_fail (env : Env) (parent : ClusterExternalSecret)
    (esName nsName : String) (c : ExternalSecret) (refs : List OwnerRef)
    (hget : env.getFails nsName = false) (hown : ¬c.meta.ownerRefs.isEmpty = true)
    (hsc : setControllerReference parent.name c.meta.ownerRefs = Except.ok refs)
    (hw : env.writeFails nsName = true) :
    syncOutcome env parent esName nsName (some c) =
      (some errCreatingOrUpdating, some c) := by
  unfold syncOutcome getOutcome checkForError resolveOutcome
  rw [hget]
  simp only [Bool.false_eq_true, if_false]
  rw [Bool.not_eq_true] at hown
  rw [hown]
  rw [hsc]
  rw [show setControllerReference parent.name ([] : List OwnerRef) =
    Except.ok [{ owner := parent.name, controller := true }] from rfl]
  dsimp only
  rw [hw]
  rfl

theorem syncOutcome_owned_update (env : Env) (parent : ClusterExternalSecret)
    (esName nsName : String) (c : ExternalSecret) (refs : List OwnerRef)
    (hget : env.getFails nsName = false) (hown : ¬c.meta.ownerRefs.isEmpty = true)
    (hsc : setControllerReference parent.name c.meta.ownerRefs = Except.ok refs)
    (hw : env.writeFails nsName = false) :
    syncOutcome env parent esName nsName (some c) =
      (none, some { c with spec := parent.spec.externalSecretSpec }) := by
  unfold syncOutcome getOutcome checkForError resolveOutcome
  rw [hget]
  simp only [Bool.false_eq_true, if_false]
  rw [Bool.not_eq_true] at hown
  rw [hown]
  rw [hsc]
  rw [show setControllerReference parent.name ([] : List OwnerRef) =
    Except.ok [{ owner := parent.name, controller := true }] from rfl]
  dsimp only
  rw [hw]
  rfl

theorem removeOutcome_notFound (env : Env) (nsName : String)
    (hget : env.getFails nsName = false) :
    removeOutcome env nsName none = ("", none) := by
  unfold removeOutcome getOutcome
  rw [hget]
  rfl

theorem removeOutcome_getFails (env : Env) (nsName : String)
    (cur : Option ExternalSecret) (hget : env.getFails nsName = true) :
    removeOutcome env nsName cur = (errGetExistingES, cur) := by
  unfold removeOutcome getOutcome
  rw [hget]
  rfl

theorem removeOutcome_conflict (env : Env) (nsName : String) (c : ExternalSecret)
    (hget : env.getFails nsName = false) (hown : c.meta.ownerRefs = []) :
    removeOutcome env nsName (some c) = (errSecretAlreadyExists, some c) := by
  unfold removeOutcome getOutcome checkForError
  rw [hget]
  simp only [Bool.false_eq_true, if_false]
  rw [hown]
  rfl

theorem removeOutcome_delete_fail (env : Env) (nsName : String) (c : ExternalSecret)
    (hget : env.getFails nsName = false) (hown : ¬c.meta.ownerRefs.isEmpty = true)
    (hd : env.deleteFails nsName = true) :
    removeOutcome env nsName (some c) = (errFailedToDelete, some c) := by
  unfold removeOutcome getOutcome checkForError
  rw [hget]
  simp only [Bool.false_eq_true, if_false]
  rw [Bool.not_eq_true] at hown
  rw [hown, hd]
  rfl

theorem removeOutcome_delete (env : Env) (nsName : String) (c : ExternalSecret)
    (hget : env.getFails nsName = false) (hown : ¬c.meta.ownerRefs.isEmpty = true)
    (hd : env.deleteFails nsName = false) :
    removeOutcome env nsName (some c) = ("", none) := by
  unfold removeOutcome getOutcome checkForError
  rw [hget]
  simp only [Bool.false_eq_true, if_false]
  rw [Bool.not_eq_true] at hown
  rw [hown, hd]
  rfl

/-- Re-running the per-namespace synchronization on its own result changes
nothing: the same reason is reported and the child value is unchanged. -/
theorem syncOutcome_idem (env : Env) (parent : ClusterExternalSecret)
    (esName nsName : String) (cur : Option ExternalSecret) :
    syncOutcome env parent esName nsName (syncOutcome env parent esName nsName cur).2 =
      syncOutcome env parent esName nsName cur := by
  by_cases hget : env.getFails nsName = true
  · rw [syncOutcome_getFails env parent esName nsName cur hget]
    exact syncOutcome_getFails env parent esName nsName cur hget
  · have hget' : env.getFails nsName = false := by
      revert hget; cases env.getFails nsName <;> simp
    cases cur with
    | none =>
        by_cases hw : env.writeFails nsName = true
        · rw [syncOutcome_create_fail env parent esName nsName hget' hw]
          exact syncOutcome_create_fail env parent esName nsName hget' hw
        · have hw' : env.writeFails nsName = false := by
            revert hw; cases env.writeFails nsName <;> simp
          rw [syncOutcome_create env parent esName nsName hget' hw']
          show syncOutcome env parent esName nsName
              (some (desiredChild parent esName nsName)) =
            (none, some (desiredChild parent esName nsName))
          have hown : ¬(desiredChild parent esName nsName).meta.ownerRefs.isEmpty = true := by
            intro h
            exact List.cons_ne_nil _ _ (List.isEmpty_iff.mp h)
          have hsc : setControllerReference parent.name
              (desiredChild parent esName nsName).meta.ownerRefs =
              Except.ok (upsertOwnerRef { owner := parent.name, controller := true }
                [{ owner := parent.name, controller := true }]) := by
            unfold setControllerReference
            rw [show getControllerOf (desiredChild parent esName nsName).meta.ownerRefs =
              some { owner := parent.name, controller := true } from rfl]
            dsimp only
            rw [if_pos rfl]
            rfl
          rw [syncOutcome_owned_update env parent esName nsName _ _ hget' hown hsc hw']
          rfl
    | some c =>
        by_cases hown : c.meta.ownerRefs.isEmpty = true
        · rw [syncOutcome_conflict env parent esName nsName c hget'
            (List.isEmpty_iff.mp hown)]
          show syncOutcome env parent esName nsName (some c) = _
          exact syncOutcome_conflict env parent esName nsName c hget'
            (List.isEmpty_iff.mp hown)
        · cases hsc : setControllerReference parent.name c.meta.ownerRefs with
          | error e =>
              have hne : ∀ refs,
                  setControllerReference parent.name c.meta.ownerRefs ≠
                    Except.ok refs := by
                intro refs h
                rw [hsc] at h
                cases h
              rw [syncOutcome_foreign_controller env parent esName nsName c hget' hown hne]
              show syncOutcome env parent esName nsName (some c) = _
              exact syncOutcome_foreign_controller env parent esName nsName c hget' hown hne
          | ok refs =>
              by_cases hw : env.writeFails nsName = true
              · rw [syncOutcome_owned_write_fail env parent esName nsName c refs
                  hget' hown hsc hw]
                show syncOutcome env parent esName nsName (some c) = _
                exact syncOutcome_owned_write_fail env parent esName nsName c refs
                  hget' hown hsc hw
              · have hw' : env.writeFails nsName = false := by
                  revert hw; cases env.writeFails nsName <;> simp
                rw [syncOutcome_owned_update env parent esName nsName c refs
                  hget' hown hsc hw']
                show syncOutcome env parent esName nsName
                    (some { c with spec := parent.spec.externalSecretSpec }) =
                  (none, some { c with spec := parent.spec.externalSecretSpec })
                have hown2 : ¬({ c with spec := parent.spec.externalSecretSpec } :
                    ExternalSecret).meta.ownerRefs.isEmpty = true := hown
                have hsc2 : setControllerReference parent.name
                    ({ c with spec := parent.spec.externalSecretSpec } :
                      ExternalSecret).meta.ownerRefs = Except.ok refs := hsc
                rw [syncOutcome_owned_update env parent esName nsName
                  { c with spec := parent.spec.externalSecretSpec } refs
                  hget' hown2 hsc2 hw']

theorem cycleLoop_env_congr (env1 env2 : Env) (parent : ClusterExternalSecret)
    (store : Store)
    (hg : env1.getFails = env2.getFails) (hw : env1.writeFails = env2.writeFails)
    (hd : env1.deleteFails = env2.deleteFails) (hi : env1.nsItems = env2.nsItems) :
    cycleLoop env1 parent store = cycleLoop env2 parent store := by
  unfold cycleLoop cycleRemoval
  rw [hi]
  rw [removeOldNamespaces_congr env1 env2 store env2.nsItems env2.nsItems
    (effectiveESName parent) parent.status.provisionedNamespaces hg hd rfl]
  rw [syncLoop_congr env1 env2 parent parent (effectiveESName parent) hg hw rfl rfl]

theorem cycleStatus_env_congr (env1 env2 : Env) (parent : ClusterExternalSecret)
    (store : Store)
    (hg : env1.getFails = env2.getFails) (hw : env1.writeFails = env2.writeFails)
    (hd : env1.deleteFails = env2.deleteFails) (hi : env1.nsItems = env2.nsItems) :
    cycleStatus env1 parent store = cycleStatus env2 parent store := by
  unfold cycleStatus
  rw [cycleLoop_env_congr env1 env2 parent store hg hw hd hi, hi]

theorem cycleStore_env_congr (env1 env2 : Env) (parent : ClusterExternalSecret)
    (store : Store)
    (hg : env1.getFails = env2.getFails) (hw : env1.writeFails = env2.writeFails)
    (hd : env1.deleteFails = env2.deleteFails) (hi : env1.nsItems = env2.nsItems) :
    cycleStore env1 parent store = cycleStore env2 parent store := by
  unfold cycleStore
  rw [cycleLoop_env_congr env1 env2 parent store hg hw hd hi]

/-! ### Witness fixtures -/

/-- Environment fixture for witnesses: parent found, all API calls
succeed, one matched namespace `a`. -/
def wEnv : Env :=
  { fetch := FetchOutcome.found, selectorFails := false, listFails := false,
    nsItems := ["a"], getFails := fun _ => false, writeFails := fun _ => false,
    deleteFails := fun _ => false, patchFails := false }

/-- Parent fixture for witnesses. -/
def wParent : ClusterExternalSecret :=
  { name := "ces",
    spec := { externalSecretName := "",
              externalSecretMetadata := { lbls := [], annots := [] },
              externalSecretSpec := "tmpl", refreshInterval := none },
    status := { provisionedNamespaces := [], failedNamespaces := [],
                condition := none } }

/-- Empty child-store fixture for witnesses. -/
def wStore : Store := fun _ _ => none

/-! ### Claims -/

/-- Claim C4: the removed set computed by the membership differ is exactly
the set difference previousProvisioned minus currentlyMatched, compared by
namespace name, and a namespace present in both lists is never placed in
the removed set. -/
theorem c4_membership_differ (nsItems provisionedNs : List String) (ns : String) :
    (ns ∈ getRemovedNamespaces nsItems provisionedNs ↔
      ns ∈ provisionedNs ∧ ns ∉ nsItems) ∧
    (ns ∈ provisionedNs → ns ∈ nsItems →
      ns ∉ getRemovedNamespaces nsItems provisionedNs) :=
  ⟨mem_getRemovedNamespaces nsItems provisionedNs ns,
    fun _ h2 hmem =>
      ((mem_getRemovedNamespaces nsItems provisionedNs ns).mp hmem).2 h2⟩

theorem c4_membership_differ_witness :
    ("b" ∈ getRemovedNamespaces ["a"] ["b", "a"] ↔
      "b" ∈ ["b", "a"] ∧ "b" ∉ ["a"]) ∧
    ("b" ∈ ["b", "a"] → "b" ∈ ["a"] →
      "b" ∉ getRemovedNamespaces ["a"] ["b", "a"]) :=
  c4_membership_differ ["a"] ["b", "a"] "b"

/-- Claim C3: when selector conversion or the namespace list fails, the
cycle performs no child create, update or delete in any namespace (the
child store is untouched), returns the error to the caller, and schedules
a requeue after the effective interval (the parent's refreshInterval if
set, else the controller default). -/
theorem c3_fatal_cycle_errors (cfg : Nat) (env : Env) (parent : ClusterExternalSecret)
    (store : Store) (hf : env.fetch = FetchOutcome.found)
    (hfail : env.selectorFails = true ∨ env.listFails = true) :
    (∀ n m, (Reconcile cfg env parent store).store n m = store n m) ∧
      (Reconcile cfg env parent store).hasError = true ∧
      (Reconcile cfg env parent store).requeueAfter =
        some (parent.spec.refreshInterval.getD cfg) := by
  by_cases hs : env.selectorFails = true
  · rw [Reconcile_selectorFail cfg env parent store hf hs]
    exact ⟨fun n m => rfl, rfl, rfl⟩
  · have hs' : env.selectorFails = false := by
      revert hs; cases env.selectorFails <;> simp
    have hl : env.listFails = true := by
      rcases hfail with h | h
      · exact absurd h hs
      · exact h
    rw [Reconcile_listFail cfg env parent store hf hs' hl]
    exact ⟨fun n m => rfl, rfl, rfl⟩

theorem c3_fatal_cycle_errors_witness :
    (∀ n m, (Reconcile 7 { wEnv with selectorFails := true } wParent wStore).store n m =
        wStore n m) ∧
      (Reconcile 7 { wEnv with selectorFails := true } wParent wStore).hasError = true ∧
      (Reconcile 7 { wEnv with selectorFails := true } wParent wStore).requeueAfter =
        some 7 :=
  c3_fatal_cycle_errors 7 { wEnv with selectorFails := true } wParent wStore rfl
    (Or.inl rfl)

/-- Claim C10: every child get, create, update or delete of a cycle
targets only the current effective child name; a child under any other
name is never modified or deleted, in matched or removed namespaces
alike. -/
theorem c10_frame_other_names (cfg : Nat) (env : Env) (parent : ClusterExternalSecret)
    (store : Store) (n m : String) (hm : m ≠ effectiveESName parent) :
    (Reconcile cfg env parent store).store n m = store n m := by
  cases hfetch : env.fetch with
  | notFound => unfold Reconcile; rw [hfetch]
  | fetchError => unfold Reconcile; rw [hfetch]
  | found =>
      by_cases hs : env.selectorFails = true
      · rw [Reconcile_selectorFail cfg env parent store hfetch hs]
      · have hs' : env.selectorFails = false := by
          revert hs; cases env.selectorFails <;> simp
        by_cases hl : env.listFails = true
        · rw [Reconcile_listFail cfg env parent store hfetch hs' hl]
        · have hl' : env.listFails = false := by
            revert hl; cases env.listFails <;> simp
          rw [Reconcile_normal cfg env parent store hfetch hs' hl']
          show cycleStore env parent store n m = store n m
          unfold cycleStore cycleLoop
          rw [syncLoop_frame env parent (effectiveESName parent) env.nsItems
            (cycleRemoval env parent store).1 [] (cycleRemoval env parent store).2 n m
            (fun h => hm h.2)]
          unfold cycleRemoval
          rw [removeOldNamespaces_eq]
          rw [removeLoop_frame env (effectiveESName parent) _ _ store n m
            (fun h => hm h.2)]

theorem c10_frame_other_names_witness :
    "other" ≠ effectiveESName wParent ∧
      (Reconcile 5 wEnv wParent wStore).store "a" "other" = wStore "a" "other" :=
  ⟨by decide, c10_frame_other_names 5 wEnv wParent wStore "a" "other" (by decide)⟩

/-- Claim C7: once the parent is fetched, every exit path of the cycle,
including the early selector-conversion and namespace-list failures,
attempts exactly one status patch carrying the cycle's in-memory status
(on the early fatal paths this is the untouched pre-cycle status); and a
patch failure changes neither the returned error, the scheduled requeue,
the computed status, nor the child store. -/
theorem c7_guaranteed_patch (cfg : Nat) (env : Env) (parent : ClusterExternalSecret)
    (store : Store) (hf : env.fetch = FetchOutcome.found) :
    (Reconcile cfg env parent store).patches =
        [(Reconcile cfg env parent store).status] ∧
      ((env.selectorFails = true ∨ env.listFails = true) →
        (Reconcile cfg env parent store).patches = [parent.status]) ∧
      ∀ b : Bool,
        (Reconcile cfg { env with patchFails := b } parent store).status =
            (Reconcile cfg env parent store).status ∧
          (Reconcile cfg { env with patchFails := b } parent store).hasError =
            (Reconcile cfg env parent store).hasError ∧
          (Reconcile cfg { env with patchFails := b } parent store).requeueAfter =
            (Reconcile cfg env parent store).requeueAfter ∧
          ∀ n m, (Reconcile cfg { env with patchFails := b } parent store).store n m =
            (Reconcile cfg env parent store).store n m := by
  by_cases hs : env.selectorFails = true
  · rw [Reconcile_selectorFail cfg env parent store hf hs]
    refine ⟨rfl, fun _ => rfl, fun b => ?_⟩
    rw [Reconcile_selectorFail cfg { env with patchFails := b } parent store hf hs]
    exact ⟨rfl, rfl, rfl, fun n m => rfl⟩
  · have hs' : env.selectorFails = false := by
      revert hs; cases env.selectorFails <;> simp
    by_cases hl : env.listFails = true
    · rw [Reconcile_listFail cfg env parent store hf hs' hl]
      refine ⟨rfl, fun _ => rfl, fun b => ?_⟩
      rw [Reconcile_listFail cfg { env with patchFails := b } parent store hf hs' hl]
      exact ⟨rfl, rfl, rfl, fun n m => rfl⟩
    · have hl' : env.listFails = false := by
        revert hl; cases env.listFails <;> simp
      rw [Reconcile_normal cfg env parent store hf hs' hl']
      refine ⟨rfl, fun hcontra => ?_, fun b => ?_⟩
      · rcases hcontra with h | h
        · exact absurd h hs
        · exact absurd h hl
      · rw [Reconcile_normal cfg { env with patchFails := b } parent store hf hs' hl']
        have hst : cycleStatus { env with patchFails := b } parent store =
            cycleStatus env parent store :=
          cycleStatus_env_congr _ env parent store rfl rfl rfl rfl
        have hsr : cycleStore { env with patchFails := b } parent store =
            cycleStore env parent store :=
          cycleStore_env_congr _ env parent store rfl rfl rfl rfl
        refine ⟨by rw [hst], rfl, rfl, fun n m => by rw [hsr]⟩

theorem c7_guaranteed_patch_witness :
    (Reconcile 5 wEnv wParent wStore).patches =
        [(Reconcile 5 wEnv wParent wStore).status] ∧
      ((wEnv.selectorFails = true ∨ wEnv.listFails = true) →
        (Reconcile 5 wEnv wParent wStore).patches = [wParent.status]) ∧
      ∀ b : Bool,
        (Reconcile 5 { wEnv with patchFails := b } wParent wStore).status =
            (Reconcile 5 wEnv wParent wStore).status ∧
          (Reconcile 5 { wEnv with patchFails := b } wParent wStore).hasError =
            (Reconcile 5 wEnv wParent wStore).hasError ∧
          (Reconcile 5 { wEnv with patchFails := b } wParent wStore).requeueAfter =
            (Reconcile 5 wEnv wParent wStore).requeueAfter ∧
          ∀ n m, (Reconcile 5 { wEnv with patchFails := b } wParent wStore).store n m =
            (Reconcile 5 wEnv wParent wStore).store n m :=
  c7_guaranteed_patch 5 wEnv wParent wStore rfl

/-! ### Fan-out re-enqueue predicate (`namespacePredicate`) -/

/-- A Go `map[string]string` as carried by an object's labels: `none` is
the nil map, `some l` a non-nil map with entries `l` (a map produced by
Go has unique keys). -/
abbrev GoStringMap := Option (List (String × String))

/-- A namespace object as seen by the watch predicate: only its labels
matter. -/
structure NsObject where
  lbls : GoStringMap
deriving DecidableEq

/-- `reflect.DeepEqual` on label maps: a nil map is equal only to a nil
map; two non-nil maps are deeply equal when they have the same length and
agree on every key of the first. -/
def deepEqualLabels : GoStringMap → GoStringMap → Bool
  | none, none => true
  | some a, some b =>
      a.length == b.length && a.all (fun p => b.lookup p.1 == some p.2)
  | _, _ => false

/-- A namespace create event (`event.CreateEvent`). -/
structure CreateEvent where
  object : Option NsObject

/-- A namespace update event (`event.UpdateEvent`), whose old or new
object reference may be nil. -/
structure UpdateEvent where
  objectOld : Option NsObject
  objectNew : Option NsObject

/-- A namespace delete event (`event.DeleteEvent`). -/
structure DeleteEvent where
  object : Option NsObject

/-- `namespacePredicate.CreateFunc`: a create event always triggers. -/
def nsCreateFunc (_e : CreateEvent) : Bool := true

/-- `namespacePredicate.UpdateFunc`: a nil old or new object never
triggers; otherwise the event triggers iff the old and new label maps are
not deeply equal. -/
def nsUpdateFunc (e : UpdateEvent) : Bool :=
  match e.objectOld, e.objectNew with
  | some o, some n => !(deepEqualLabels o.lbls n.lbls)
  | _, _ => false

/-- `namespacePredicate.DeleteFunc`: a delete event always triggers. -/
def nsDeleteFunc (_e : DeleteEvent) : Bool := true

/-- The label set denoted by a label map, as key lookups; the nil map and
the empty non-nil map denote the same (empty) label set. -/
def labelLookup : GoStringMap → String → Option String
  | none, _ => none
  | some l, k => l.lookup k

theorem mem_of_lookup_eq_some :
    ∀ (l : List (String × String)) (k v : String),
      l.lookup k = some v → (k, v) ∈ l := by
  intro l
  induction l with
  | nil => intro k v h; cases h
  | cons p rest ih =>
      intro k v h
      rw [List.lookup_cons] at h
      cases hbeq : k == p.1 with
      | true =>
          simp only [hbeq] at h
          cases h
          have hk : k = p.1 := by simpa using hbeq
          rw [hk]
          exact List.mem_cons_self _ _
      | false =>
          simp only [hbeq] at h
          exact List.mem_cons_of_mem p (ih k v h)

theorem lookup_eq_some_of_mem :
    ∀ (l : List (String × String)) (k v : String),
      (l.map Prod.fst).Nodup → (k, v) ∈ l → l.lookup k = some v := by
  intro l
  induction l with
  | nil => intro k v _ h; cases h
  | cons p rest ih =>
      intro k v hnd hmem
      rw [List.map_cons, List.nodup_cons] at hnd
      rw [List.lookup_cons]
      rcases List.mem_cons.mp hmem with h | h
      · have hk : k = p.1 := by rw [← h]
        have hbeq : (k == p.1) = true := by simp [hk]
        simp only [hbeq]
        rw [← h]
      · have hk : k ≠ p.1 := fun he => hnd.1 (List.mem_map.mpr ⟨(k, v), h, he⟩)
        have hbeq : (k == p.1) = false := by simp [hk]
        simp only [hbeq]
        exact ih k v hnd.2 h

/-- For non-nil maps with unique keys, Go deep equality is exactly
equality of the key-value sets. -/
theorem deepEqual_some_iff_perm (a b : List (String × String))
    (ha : (a.map Prod.fst).Nodup) (hb : (b.map Prod.fst).Nodup) :
    deepEqualLabels (some a) (some b) = true ↔ List.Perm a b := by
  unfold deepEqualLabels
  rw [Bool.and_eq_true, beq_iff_eq, List.all_eq_true]
  constructor
  · rintro ⟨hlen, hall⟩
    have hsub : a ⊆ b := by
      intro p hp
      have h2 := hall p hp
      rw [beq_iff_eq] at h2
      have h3 := mem_of_lookup_eq_some b p.1 p.2 h2
      simpa using h3
    exact (List.subperm_of_subset (List.Nodup.of_map _ ha) hsub).perm_of_length_le
      (le_of_eq hlen.symm)
  · intro hperm
    refine ⟨hperm.length_eq, fun p hp => ?_⟩
    rw [beq_iff_eq]
    exact lookup_eq_some_of_mem b p.1 p.2 hb (by simpa using hperm.subset hp)

/-- Claim C9 counterexample: an update whose old object carries a nil
label map and whose new object carries an empty non-nil label map
triggers re-evaluation although the two label sets are equal, refuting
the claimed "iff the label sets are not equal". -/
theorem c9_counterexample :
    ¬((nsUpdateFunc ⟨some ⟨none⟩, some ⟨some []⟩⟩ = true) ↔
        ¬∀ k, labelLookup none k = labelLookup (some []) k) := by
  intro h
  exact (h.mp rfl) (fun k => rfl)

/-- Claim C9 (amended): a create or delete event always triggers; an
update carrying a nil old or new object never triggers; an update with
both objects present triggers iff their label maps are not deeply equal
in Go's sense, where a nil map is deeply equal only to a nil map (so a
nil-to-empty transition triggers) and two non-nil maps with unique keys
are deeply equal exactly when they hold the same key-value pairs. -/
theorem c9_reenqueue_predicate_amended (c : CreateEvent) (d : DeleteEvent)
    (e : UpdateEvent) (o n : NsObject) (a b : List (String × String))
    (ha : (a.map Prod.fst).Nodup) (hb : (b.map Prod.fst).Nodup) :
    nsCreateFunc c = true ∧
    nsDeleteFunc d = true ∧
    ((e.objectOld = none ∨ e.objectNew = none) → nsUpdateFunc e = false) ∧
    nsUpdateFunc ⟨some o, some n⟩ = !(deepEqualLabels o.lbls n.lbls) ∧
    (deepEqualLabels (some a) (some b) = true ↔ List.Perm a b) ∧
    deepEqualLabels none (some a) = false ∧
    deepEqualLabels (some a) none = false ∧
    deepEqualLabels none none = true := by
  refine ⟨rfl, rfl, ?_, rfl, deepEqual_some_iff_perm a b ha hb, rfl, rfl, rfl⟩
  rintro (h | h)
  · unfold nsUpdateFunc
    rw [h]
  · unfold nsUpdateFunc
    rw [h]
    cases e.objectOld <;> rfl

theorem c9_reenqueue_predicate_amended_witness :
    nsCreateFunc ⟨none⟩ = true ∧
    nsDeleteFunc ⟨none⟩ = true ∧
    (((⟨none, none⟩ : UpdateEvent).objectOld = none ∨
      (⟨none, none⟩ : UpdateEvent).objectNew = none) →
      nsUpdateFunc ⟨none, none⟩ = false) ∧
    nsUpdateFunc ⟨some ⟨none⟩, some ⟨none⟩⟩ =
      !(deepEqualLabels (⟨none⟩ : NsObject).lbls (⟨none⟩ : NsObject).lbls) ∧
    (deepEqualLabels (some [("k", "v")]) (some [("k", "v")]) = true ↔
      List.Perm [("k", "v")] [("k", "v")]) ∧
    deepEqualLabels none (some [("k", "v")]) = false ∧
    deepEqualLabels (some [("k", "v")]) none = false ∧
    deepEqualLabels none none = true :=
  c9_reenqueue_predicate_amended ⟨none⟩ ⟨none⟩ ⟨none, none⟩ ⟨none⟩ ⟨none⟩
    [("k", "v")] [("k", "v")] (by decide) (by decide)

/-- Environment fixture for C6: nothing currently matches, and the delete
in namespace `b` fails. -/
def c6Env : Env :=
  { wEnv with nsItems := [], deleteFails := fun n => n = "b" }

/-- Parent fixture for C6: namespace `b` was previously provisioned. -/
def c6Parent : ClusterExternalSecret :=
  { wParent with
    status := { provisionedNamespaces := ["b"], failedNamespaces := [],
                condition := none } }

/-- Store fixture for C6: namespace `b` holds a child controlled by the
parent. -/
def c6Store : Store := fun n m =>
  if n = "b" ∧ m = "ces" then
    some { meta := { name := "ces", ns := "b", lbls := [], annots := [],
                     ownerRefs := [{ owner := "ces", controller := true }] },
           spec := "tmpl" }
  else none

/-- Claim C6 counterexample: when the delete of a removed namespace's
child fails, the recorded per-namespace reason is the source string
"external secret in non matching namespace could not be deleted" — the
literal reason `could not delete` named by the claim is never recorded. -/
theorem c6_counterexample :
    (Reconcile 5 c6Env c6Parent c6Store).status.failedNamespaces =
        [{ ns := "b", reason := errFailedToDelete }] ∧
      errFailedToDelete ≠ "could not delete" := by
  exact ⟨by decide, by decide⟩

/-- Claim C6 (amended): deleting a child that is absent succeeds silently
and records no failure; a failing delete records the per-namespace reason
"external secret in non matching namespace could not be deleted"; and a
failure never aborts the removal pass — the failure map after the pass
holds exactly one entry per removed namespace whose own removal outcome
failed, each independent of the other namespaces' outcomes. -/
theorem c6_delete_idempotence_amended (env : Env) (store : Store)
    (nsItems : List String) (esName : String) (prov : List String)
    (hnd : (getRemovedNamespaces nsItems prov).Nodup) :
    (removeOldNamespaces env store nsItems esName prov).1 =
        (getRemovedNamespaces nsItems prov).filterMap (fun ns =>
          let r := removeOutcome env ns (store ns esName)
          if r.1 = "" then none else some (ns, r.1)) ∧
      (∀ ns, env.getFails ns = false →
        removeOutcome env ns none = ("", none)) ∧
      (∀ ns c, env.getFails ns = false → ¬c.meta.ownerRefs.isEmpty = true →
        env.deleteFails ns = true →
        removeOutcome env ns (some c) = (errFailedToDelete, some c)) := by
  refine ⟨?_, fun ns h => removeOutcome_notFound env ns h,
    fun ns c h1 h2 h3 => removeOutcome_delete_fail env ns c h1 h2 h3⟩
  rw [removeOldNamespaces_eq]
  exact (removeLoop_spec env esName (getRemovedNamespaces nsItems prov) [] store hnd
    (fun ns _ => by simp)).1

theorem c6_delete_idempotence_amended_witness :
    ((removeOldNamespaces c6Env c6Store [] "ces" ["b"]).1 =
        (getRemovedNamespaces [] ["b"]).filterMap (fun ns =>
          let r := removeOutcome c6Env ns (c6Store ns "ces")
          if r.1 = "" then none else some (ns, r.1)) ∧
      (∀ ns, c6Env.getFails ns = false →
        removeOutcome c6Env ns none = ("", none)) ∧
      (∀ ns c, c6Env.getFails ns = false → ¬c.meta.ownerRefs.isEmpty = true →
        c6Env.deleteFails ns = true →
        removeOutcome c6Env ns (some c) = (errFailedToDelete, some c))) :=
  c6_delete_idempotence_amended c6Env c6Store [] "ces" ["b"] (by decide)

/-- Child fixture for C1: a pre-existing child in namespace `a` with one
non-controller owner reference to another object and a spec differing
from the parent's template. -/
def c1Child : ExternalSecret :=
  { meta := { name := "ces", ns := "a", lbls := [("k", "v")], annots := [],
              ownerRefs := [{ owner := "other", controller := false }] },
    spec := "x" }

/-- Store fixture for C1. -/
def c1Store : Store := fun n m =>
  if n = "a" ∧ m = "ces" then some c1Child else none

/-- Claim C1 counterexample: a pre-existing child that is not owned as
controller by the parent (it has one non-controller owner reference to
another object) is nevertheless overwritten: the cycle replaces its spec
with the parent's template, lists the namespace as provisioned, and
records no failure. -/
theorem c1_counterexample :
    getControllerOf c1Child.meta.ownerRefs = none ∧
      c1Child.spec ≠ wParent.spec.externalSecretSpec ∧
      (Reconcile 5 wEnv wParent c1Store).store "a" "ces" =
        some { c1Child with spec := wParent.spec.externalSecretSpec } ∧
      (Reconcile 5 wEnv wParent c1Store).status.provisionedNamespaces = ["a"] ∧
      (Reconcile 5 wEnv wParent c1Store).status.failedNamespaces = [] := by
  exact ⟨rfl, by decide, by decide, by decide, by decide⟩

/-- Claim C1 (amended): for a matched namespace whose existing child
either has no owner references at all, or has a controlling owner other
than the parent, the cycle leaves the child untouched, records a
per-namespace failure ("external secret already exists in namespace" in
the ownerless case, "could not set the controller owner reference" in the
foreign-controller case), and does not list the namespace as provisioned.
A child carrying only non-controller owner references is outside this
guarantee (see the counterexample). -/
theorem c1_ownership_safety_amended (cfg : Nat) (env : Env)
    (parent : ClusterExternalSecret) (store : Store) (nsName : String)
    (child : ExternalSecret)
    (hf : env.fetch = FetchOutcome.found) (hs : env.selectorFails = false)
    (hl : env.listFails = false) (hnd : env.nsItems.Nodup)
    (hmem : nsName ∈ env.nsItems) (hget : env.getFails nsName = false)
    (hcur : store nsName (effectiveESName parent) = some child)
    (hbad : child.meta.ownerRefs = [] ∨
      ∃ r, getControllerOf child.meta.ownerRefs = some r ∧ r.owner ≠ parent.name) :
    (Reconcile cfg env parent store).store nsName (effectiveESName parent) =
        some child ∧
      ({ ns := nsName,
         reason := if child.meta.ownerRefs = [] then errSecretAlreadyExists
           else errSetCtrlReference } : NamespaceFailure) ∈
        (Reconcile cfg env parent store).status.failedNamespaces ∧
      nsName ∉ (Reconcile cfg env parent store).status.provisionedNamespaces := by
  have hsync : syncOutcome env parent (effectiveESName parent) nsName (some child) =
      (some (if child.meta.ownerRefs = [] then errSecretAlreadyExists
        else errSetCtrlReference), some child) := by
    rcases hbad with h | hex
    · rw [if_pos h]
      exact syncOutcome_conflict env parent _ nsName child hget h
    · obtain ⟨r, hr, hrne⟩ := hex
      have hne : child.meta.ownerRefs ≠ [] := by
        intro he
        rw [he] at hr
        cases hr
      rw [if_neg hne]
      apply syncOutcome_foreign_controller env parent _ nsName child hget
      · intro h
        exact hne (List.isEmpty_iff.mp h)
      · intro refs hok
        unfold setControllerReference at hok
        simp only [hr, if_neg hrne] at hok
        cases hok
  have hnotrem : nsName ∉
      getRemovedNamespaces env.nsItems parent.status.provisionedNamespaces :=
    fun hin => ((mem_getRemovedNamespaces _ _ _).mp hin).2 hmem
  have hfr : (cycleRemoval env parent store).2 nsName (effectiveESName parent) =
      store nsName (effectiveESName parent) := by
    unfold cycleRemoval
    rw [removeOldNamespaces_eq]
    exact removeLoop_frame env (effectiveESName parent) _ [] store nsName
      (effectiveESName parent) (fun hc => hnotrem hc.1)
  have hfresh : ∀ ns ∈ env.nsItems,
      ns ∉ ((cycleRemoval env parent store).1).map Prod.fst := by
    intro ns hns hkey
    unfold cycleRemoval at hkey
    rw [removeOldNamespaces_eq] at hkey
    rcases removeLoop_keys env (effectiveESName parent) _ [] store ns hkey with h | h
    · simp at h
    · exact ((mem_getRemovedNamespaces _ _ _).mp h).2 hns
  obtain ⟨hfail, hprov, hstoreC⟩ := syncLoop_spec env parent (effectiveESName parent)
    env.nsItems (cycleRemoval env parent store).1 [] (cycleRemoval env parent store).2
    hnd hfresh
  rw [Reconcile_normal cfg env parent store hf hs hl]
  refine ⟨?_, ?_, ?_⟩
  · show cycleStore env parent store nsName (effectiveESName parent) = some child
    unfold cycleStore cycleLoop
    rw [hstoreC nsName (effectiveESName parent)]
    rw [if_pos ⟨hmem, rfl⟩, hfr, hcur, hsync]
  · show _ ∈ (cycleStatus env parent store).failedNamespaces
    unfold cycleStatus cycleLoop
    rw [(toNamespaceFailures_perm _).mem_iff]
    rw [hfail]
    apply List.mem_map.mpr
    refine ⟨(nsName, if child.meta.ownerRefs = [] then errSecretAlreadyExists
      else errSetCtrlReference), ?_, rfl⟩
    apply List.mem_append.mpr
    right
    apply List.mem_filterMap.mpr
    refine ⟨nsName, hmem, ?_⟩
    rw [hfr, hcur, hsync]
  · show nsName ∉ (cycleStatus env parent store).provisionedNamespaces
    unfold cycleStatus cycleLoop
    intro hin
    rw [(sortStrings_perm _).mem_iff, hprov] at hin
    rcases List.mem_append.mp hin with h | h
    · simp at h
    · have h2 := (List.mem_filter.mp h).2
      rw [hfr, hcur, hsync] at h2
      simp at h2

/-- Child fixture for the C1 witness: an ownerless pre-existing child. -/
def c1bChild : ExternalSecret :=
  { meta := { name := "ces", ns := "a", lbls := [], annots := [],
              ownerRefs := [] },
    spec := "x" }

/-- Store fixture for the C1 witness. -/
def c1bStore : Store := fun n m =>
  if n = "a" ∧ m = "ces" then some c1bChild else none

theorem c1_ownership_safety_amended_witness :
    (Reconcile 5 wEnv wParent c1bStore).store "a" (effectiveESName wParent) =
        some c1bChild ∧
      ({ ns := "a",
         reason := if c1bChild.meta.ownerRefs = [] then errSecretAlreadyExists
           else errSetCtrlReference } : NamespaceFailure) ∈
        (Reconcile 5 wEnv wParent c1bStore).status.failedNamespaces ∧
      "a" ∉ (Reconcile 5 wEnv wParent c1bStore).status.provisionedNamespaces :=
  c1_ownership_safety_amended 5 wEnv wParent c1bStore "a" c1bChild
    rfl rfl rfl (by decide) (by decide) rfl (by decide) (Or.inl rfl)

/-- The removal pass leaves the child keys of currently matched
namespaces untouched (a matched namespace is never in the removed set). -/
theorem cycleRemoval_frame_matched (env : Env) (parent : ClusterExternalSecret)
    (store : Store) (ns : String) (hns : ns ∈ env.nsItems) :
    (cycleRemoval env parent store).2 ns (effectiveESName parent) =
      store ns (effectiveESName parent) := by
  unfold cycleRemoval
  rw [removeOldNamespaces_eq]
  exact removeLoop_frame env (effectiveESName parent) _ [] store ns
    (effectiveESName parent)
    (fun hc => ((mem_getRemovedNamespaces _ _ _).mp hc.1).2 hns)

/-- Removal-pass failure keys are removed namespaces, hence never
currently matched. -/
theorem cycleRemoval_keys_fresh (env : Env) (parent : ClusterExternalSecret)
    (store : Store) :
    ∀ ns ∈ env.nsItems, ns ∉ ((cycleRemoval env parent store).1).map Prod.fst := by
  intro ns hns hkey
  unfold cycleRemoval at hkey
  rw [removeOldNamespaces_eq] at hkey
  rcases removeLoop_keys env (effectiveESName parent) _ [] store ns hkey with h | h
  · simp at h
  · exact ((mem_getRemovedNamespaces _ _ _).mp h).2 hns

/-- Characterization of the whole normal cycle over distinct matched
namespaces, with every per-namespace outcome expressed against the
pre-cycle store. -/
theorem cycleLoop_spec (env : Env) (parent : ClusterExternalSecret) (store : Store)
    (hnd : env.nsItems.Nodup) :
    (cycleLoop env parent store).1 =
        (cycleRemoval env parent store).1 ++ env.nsItems.filterMap (fun ns =>
          match (syncOutcome env parent (effectiveESName parent) ns
            (store ns (effectiveESName parent))).1 with
          | some r => some (ns, r)
          | none => none) ∧
      (cycleLoop env parent store).2.1 =
        env.nsItems.filter (fun ns =>
          ((syncOutcome env parent (effectiveESName parent) ns
            (store ns (effectiveESName parent))).1).isNone) ∧
      ∀ a b, (cycleLoop env parent store).2.2 a b =
        if a ∈ env.nsItems ∧ b = effectiveESName parent then
          (syncOutcome env parent (effectiveESName parent) a
            (store a (effectiveESName parent))).2
        else (cycleRemoval env parent store).2 a b := by
  obtain ⟨h1, h2, h3⟩ := syncLoop_spec env parent (effectiveESName parent) env.nsItems
    (cycleRemoval env parent store).1 [] (cycleRemoval env parent store).2 hnd
    (cycleRemoval_keys_fresh env parent store)
  refine ⟨?_, ?_, ?_⟩
  · show (syncLoop env parent (effectiveESName parent) env.nsItems
      (cycleRemoval env parent store).1 [] (cycleRemoval env parent store).2).1 = _
    rw [h1]
    congr 1
    apply List.filterMap_congr
    intro ns hns
    rw [cycleRemoval_frame_matched env parent store ns hns]
  · show (syncLoop env parent (effectiveESName parent) env.nsItems
      (cycleRemoval env parent store).1 [] (cycleRemoval env parent store).2).2.1 = _
    rw [h2, List.nil_append]
    apply List.filter_congr
    intro ns hns
    rw [cycleRemoval_frame_matched env parent store ns hns]
  · intro a b
    show (syncLoop env parent (effectiveESName parent) env.nsItems
      (cycleRemoval env parent store).1 [] (cycleRemoval env parent store).2).2.2 a b = _
    rw [h3 a b]
    by_cases hc : a ∈ env.nsItems ∧ b = effectiveESName parent
    · rw [if_pos hc, if_pos hc, cycleRemoval_frame_matched env parent store a hc.1]
    · rw [if_neg hc, if_neg hc]

/-- Claim C5: after a cycle that reaches the status-building step, the
provisioned list holds exactly the matched namespaces whose
synchronization succeeded this cycle — it is rebuilt from an empty list,
never accumulated — and no namespace appears in both the provisioned list
and the failed list of the same cycle's status. -/
theorem c5_status_freshness (cfg : Nat) (env : Env) (parent : ClusterExternalSecret)
    (store : Store)
    (hf : env.fetch = FetchOutcome.found) (hs : env.selectorFails = false)
    (hl : env.listFails = false) (hnd : env.nsItems.Nodup) :
    (∀ ns, ns ∈ (Reconcile cfg env parent store).status.provisionedNamespaces ↔
      ns ∈ env.nsItems ∧
        (syncOutcome env parent (effectiveESName parent) ns
          (store ns (effectiveESName parent))).1 = none) ∧
    ∀ ns ∈ (Reconcile cfg env parent store).status.provisionedNamespaces,
      ∀ f ∈ (Reconcile cfg env parent store).status.failedNamespaces, f.ns ≠ ns := by
  obtain ⟨hfail, hprov, _⟩ := cycleLoop_spec env parent store hnd
  rw [Reconcile_normal cfg env parent store hf hs hl]
  have hmemp : ∀ ns, ns ∈ (cycleStatus env parent store).provisionedNamespaces ↔
      ns ∈ env.nsItems ∧
        (syncOutcome env parent (effectiveESName parent) ns
          (store ns (effectiveESName parent))).1 = none := by
    intro ns
    show ns ∈ sortStrings (cycleLoop env parent store).2.1 ↔ _
    rw [(sortStrings_perm _).mem_iff, hprov, List.mem_filter]
    constructor
    · rintro ⟨h1, h2⟩
      exact ⟨h1, Option.isNone_iff_eq_none.mp h2⟩
    · rintro ⟨h1, h2⟩
      refine ⟨h1, ?_⟩
      rw [h2]
      rfl
  refine ⟨hmemp, ?_⟩
  intro ns hns f hfmem heq
  have houtcome := ((hmemp ns).mp hns).2
  have hfmem2 : (f.ns, f.reason) ∈ (cycleLoop env parent store).1 := by
    have h2 : f ∈ toNamespaceFailures (cycleLoop env parent store).1 := hfmem
    rw [(toNamespaceFailures_perm _).mem_iff] at h2
    obtain ⟨p, hp, hpe⟩ := List.mem_map.mp h2
    have h3 : p.1 = f.ns ∧ p.2 = f.reason := by
      constructor
      · rw [← hpe]
      · rw [← hpe]
    rw [← h3.1, ← h3.2]
    exact hp
  rw [hfail] at hfmem2
  rcases List.mem_append.mp hfmem2 with h | h
  · have hkey : f.ns ∈ ((cycleRemoval env parent store).1).map Prod.fst :=
      List.mem_map.mpr ⟨(f.ns, f.reason), h, rfl⟩
    rw [heq] at hkey
    exact cycleRemoval_keys_fresh env parent store ns ((hmemp ns).mp hns).1 hkey
  · obtain ⟨a, ha, hae⟩ := List.mem_filterMap.mp h
    revert hae
    cases hao : (syncOutcome env parent (effectiveESName parent) a
        (store a (effectiveESName parent))).1 with
    | none => intro hae; cases hae
    | some r =>
        intro hae
        have hinj := Option.some.inj hae
        have ha2 : a = f.ns := congrArg Prod.fst hinj
        rw [ha2, heq, houtcome] at hao
        cases hao

theorem c5_status_freshness_witness :
    (∀ ns, ns ∈ (Reconcile 5 wEnv wParent wStore).status.provisionedNamespaces ↔
      ns ∈ wEnv.nsItems ∧
        (syncOutcome wEnv wParent (effectiveESName wParent) ns
          (wStore ns (effectiveESName wParent))).1 = none) ∧
    ∀ ns ∈ (Reconcile 5 wEnv wParent wStore).status.provisionedNamespaces,
      ∀ f ∈ (Reconcile 5 wEnv wParent wStore).status.failedNamespaces, f.ns ≠ ns :=
  c5_status_freshness 5 wEnv wParent wStore rfl rfl rfl (by decide)

/-- Two cycle statuses agree when their loops' failure maps and
provisioned lists agree and the matched counts agree. -/
theorem cycleStatus_eq_of (env1 env2 : Env) (p1 p2 : ClusterExternalSecret)
    (s1 s2 : Store)
    (hfl : (cycleLoop env1 p1 s1).1 = (cycleLoop env2 p2 s2).1)
    (hpv : (cycleLoop env1 p1 s1).2.1 = (cycleLoop env2 p2 s2).2.1)
    (hlen : env1.nsItems.length = env2.nsItems.length) :
    cycleStatus env1 p1 s1 = cycleStatus env2 p2 s2 := by
  unfold cycleStatus
  rw [hfl, hpv, hlen]

/-- Parent fixture for the C2 counterexample: namespace `b` is recorded
as previously provisioned. -/
def c2Parent : ClusterExternalSecret :=
  { wParent with
    status := { provisionedNamespaces := ["b"], failedNamespaces := [],
                condition := none } }

/-- Store fixture for the C2 counterexample: the no-longer-matching
namespace `b` holds an unrelated, ownerless child. -/
def c2Store : Store := fun n m =>
  if n = "b" ∧ m = "ces" then
    some { meta := { name := "ces", ns := "b", lbls := [], annots := [],
                     ownerRefs := [] },
           spec := "x" }
  else none

/-- Claim C2 counterexample: the first cycle records a removal conflict
for namespace `b` in `failedNamespaces`; the second cycle, run with no
intervening external change, no longer considers `b` removed (it is
absent from the freshly rebuilt provisioned list) and reports no failure,
so the two cycles' statuses differ. -/
theorem c2_counterexample :
    (Reconcile 5 wEnv
        { c2Parent with status := (Reconcile 5 wEnv c2Parent c2Store).status }
        (Reconcile 5 wEnv c2Parent c2Store).store).status ≠
      (Reconcile 5 wEnv c2Parent c2Store).status := by
  decide

/-- Claim C2 (amended): with no intervening external change, the child
stores after the first and the second cycle agree in every namespace,
unconditionally; and provided the first cycle's removal pass records no
failure (in particular, whenever every previously provisioned namespace
still matches), the second cycle's status — provisioned list, failed
list and condition — also equals the first cycle's.  When the removal
pass does record a failure, the statuses may legitimately differ,
because the failed removal is not retried by the next cycle (see the
counterexample). -/
theorem c2_cycle_idempotence_amended (cfg : Nat) (env : Env)
    (parent : ClusterExternalSecret) (store : Store)
    (hf : env.fetch = FetchOutcome.found) (hs : env.selectorFails = false)
    (hl : env.listFails = false) (hnd : env.nsItems.Nodup) :
    (∀ n m,
      (Reconcile cfg env
        { parent with status := (Reconcile cfg env parent store).status }
        (Reconcile cfg env parent store).store).store n m =
      (Reconcile cfg env parent store).store n m) ∧
    ((cycleRemoval env parent store).1 = [] →
      (Reconcile cfg env
          { parent with status := (Reconcile cfg env parent store).status }
          (Reconcile cfg env parent store).store).status =
        (Reconcile cfg env parent store).status) := by
  obtain ⟨hfail1, hprov1, hstore1⟩ := cycleLoop_spec env parent store hnd
  rw [Reconcile_normal cfg env parent store hf hs hl]
  rw [Reconcile_normal cfg env
    { parent with status := cycleStatus env parent store }
    (cycleStore env parent store) hf hs hl]
  have hprovsub : ∀ ns ∈ (cycleStatus env parent store).provisionedNamespaces,
      ns ∈ env.nsItems := by
    intro ns hns
    have h2 : ns ∈ (cycleLoop env parent store).2.1 :=
      (sortStrings_perm _).mem_iff.mp hns
    rw [hprov1] at h2
    exact (List.mem_filter.mp h2).1
  have hrem2 : getRemovedNamespaces env.nsItems
      (cycleStatus env parent store).provisionedNamespaces = [] := by
    unfold getRemovedNamespaces
    apply List.filter_eq_nil_iff.mpr
    intro a ha hcon
    rw [Bool.not_eq_true'] at hcon
    have hmem : List.elem a env.nsItems = true :=
      List.elem_iff.mpr (hprovsub a ha)
    have hc2 : env.nsItems.contains a = true := hmem
    rw [hc2] at hcon
    cases hcon
  have hremoval2 : cycleRemoval env
      { parent with status := cycleStatus env parent store }
      (cycleStore env parent store) = ([], cycleStore env parent store) := by
    unfold cycleRemoval
    rw [removeOldNamespaces_eq]
    rw [show ({ parent with status := cycleStatus env parent store } :
        ClusterExternalSecret).status.provisionedNamespaces =
      (cycleStatus env parent store).provisionedNamespaces from rfl]
    rw [hrem2]
    rfl
  have hloop2 : cycleLoop env
      { parent with status := cycleStatus env parent store }
      (cycleStore env parent store) =
      syncLoop env parent (effectiveESName parent) env.nsItems [] []
        (cycleStore env parent store) := by
    unfold cycleLoop
    rw [hremoval2]
    rw [syncLoop_congr env env
      { parent with status := cycleStatus env parent store } parent
      (effectiveESName { parent with status := cycleStatus env parent store })
      rfl rfl rfl rfl]
    rfl
  obtain ⟨hfail2, hprov2, hstore2⟩ := syncLoop_spec env parent
    (effectiveESName parent) env.nsItems [] [] (cycleStore env parent store) hnd
    (fun ns _ => by simp)
  have hkey : ∀ ns ∈ env.nsItems,
      cycleStore env parent store ns (effectiveESName parent) =
        (syncOutcome env parent (effectiveESName parent) ns
          (store ns (effectiveESName parent))).2 := by
    intro ns hns
    show (cycleLoop env parent store).2.2 ns (effectiveESName parent) = _
    rw [hstore1 ns (effectiveESName parent), if_pos ⟨hns, rfl⟩]
  have hOidem : ∀ ns ∈ env.nsItems,
      syncOutcome env parent (effectiveESName parent) ns
        (cycleStore env parent store ns (effectiveESName parent)) =
      syncOutcome env parent (effectiveESName parent) ns
        (store ns (effectiveESName parent)) := by
    intro ns hns
    rw [hkey ns hns]
    exact syncOutcome_idem env parent (effectiveESName parent) ns
      (store ns (effectiveESName parent))
  have hprovEq : (syncLoop env parent (effectiveESName parent) env.nsItems [] []
      (cycleStore env parent store)).2.1 = (cycleLoop env parent store).2.1 := by
    rw [hprov2, hprov1, List.nil_append]
    apply List.filter_congr
    intro ns hns
    rw [hOidem ns hns]
  constructor
  · intro n m
    show (cycleLoop env
        { parent with status := cycleStatus env parent store }
        (cycleStore env parent store)).2.2 n m = cycleStore env parent store n m
    rw [hloop2, hstore2 n m]
    by_cases hc : n ∈ env.nsItems ∧ m = effectiveESName parent
    · rw [if_pos hc]
      rw [hOidem n hc.1]
      rw [hc.2]
      exact (hkey n hc.1).symm
    · rw [if_neg hc]
  · intro hrem
    have hfailEq : (syncLoop env parent (effectiveESName parent) env.nsItems [] []
        (cycleStore env parent store)).1 = (cycleLoop env parent store).1 := by
      rw [hfail2, hfail1, hrem, List.nil_append, List.nil_append]
      apply List.filterMap_congr
      intro ns hns
      rw [hOidem ns hns]
    show cycleStatus env
        { parent with status := cycleStatus env parent store }
        (cycleStore env parent store) = cycleStatus env parent store
    apply cycleStatus_eq_of env env _ parent _ store _ _ rfl
    · rw [hloop2]
      exact hfailEq
    · rw [hloop2]
      exact hprovEq

theorem c2_cycle_idempotence_amended_witness :
    (∀ n m,
      (Reconcile 5 wEnv
        { wParent with status := (Reconcile 5 wEnv wParent wStore).status }
        (Reconcile 5 wEnv wParent wStore).store).store n m =
      (Reconcile 5 wEnv wParent wStore).store n m) ∧
    ((cycleRemoval wEnv wParent wStore).1 = [] →
      (Reconcile 5 wEnv
          { wParent with status := (Reconcile 5 wEnv wParent wStore).status }
          (Reconcile 5 wEnv wParent wStore).store).status =
        (Reconcile 5 wEnv wParent wStore).status) :=
  c2_cycle_idempotence_amended 5 wEnv wParent wStore rfl rfl rfl (by decide)

theorem sortStrings_perm_eq (l1 l2 : List String) (h : List.Perm l1 l2) :
    sortStrings l1 = sortStrings l2 := by
  haveI : IsAntisymm String (fun a b : String => a ≤ b) :=
    ⟨fun a b h1 h2 => le_antisymm h1 h2⟩
  exact List.eq_of_perm_of_sorted
    (((sortStrings_perm l1).trans h).trans (sortStrings_perm l2).symm)
    (sortStrings_sorted l1) (sortStrings_sorted l2)

theorem sorted_strict_of_sorted_le (l : List NamespaceFailure)
    (hs : l.Sorted (fun a b => a.ns ≤ b.ns))
    (hn : (l.map (fun f => f.ns)).Nodup) :
    l.Sorted (fun a b => a.ns < b.ns) := by
  induction l with
  | nil => exact List.sorted_nil
  | cons x xs ih =>
      rw [List.sorted_cons] at hs ⊢
      rw [List.map_cons, List.nodup_cons] at hn
      refine ⟨fun b hb => lt_of_le_of_ne (hs.1 b hb) ?_, ih hs.2 hn.2⟩
      intro he
      exact hn.1 (by rw [he]; exact List.mem_map.mpr ⟨b, hb, rfl⟩)

/-- Failure maps with the same entries (and unique namespaces) sort to the
same failure list. -/
theorem toNamespaceFailures_perm_eq (f1 f2 : List (String × String))
    (h : List.Perm f1 f2) (hnd : (f1.map Prod.fst).Nodup) :
    toNamespaceFailures f1 = toNamespaceFailures f2 := by
  haveI : IsAntisymm NamespaceFailure (fun a b => a.ns < b.ns) :=
    ⟨fun a b h1 h2 => absurd (lt_trans h1 h2) (lt_irrefl _)⟩
  have hkeys1 : ((toNamespaceFailures f1).map (fun f => f.ns)).Nodup := by
    have hp : List.Perm ((toNamespaceFailures f1).map (fun f => f.ns))
        ((f1.map (fun p => ({ ns := p.1, reason := p.2 } : NamespaceFailure))).map
          (fun f => f.ns)) :=
      (toNamespaceFailures_perm f1).map _
    apply hp.symm.nodup
    rw [List.map_map]
    exact hnd
  have hperm12 : List.Perm (toNamespaceFailures f1) (toNamespaceFailures f2) :=
    ((toNamespaceFailures_perm f1).trans
      (h.map (fun p => ({ ns := p.1, reason := p.2 } : NamespaceFailure)))).trans
      (toNamespaceFailures_perm f2).symm
  have hkeys2 : ((toNamespaceFailures f2).map (fun f => f.ns)).Nodup :=
    (hperm12.map (fun f => f.ns)).nodup hkeys1
  exact List.eq_of_perm_of_sorted hperm12
    (sorted_strict_of_sorted_le _ (toNamespaceFailures_sorted f1) hkeys1)
    (sorted_strict_of_sorted_le _ (toNamespaceFailures_sorted f2) hkeys2)

/-- The condition depends on the failure map only through its entry count
(and emptiness), so maps with the same entries yield the same condition. -/
theorem newCESCondition_perm (f1 f2 : List (String × String)) (n1 n2 : Nat)
    (h : List.Perm f1 f2) (hn : n1 = n2) :
    newCESCondition f1 n1 = newCESCondition f2 n2 := by
  have hlen := h.length_eq
  have hiso : f1.isEmpty = f2.isEmpty := by
    cases hc1 : f1 with
    | nil =>
        have h0 : f2.length = 0 := by
          rw [← hlen, hc1]
          rfl
        rw [List.eq_nil_of_length_eq_zero h0]
    | cons a as =>
        cases hc2 : f2 with
        | nil =>
            rw [hc1, hc2] at hlen
            cases hlen
        | cons b bs => rfl
  unfold newCESCondition
  rw [hiso, hlen, hn]

/-- The whole-cycle failure map always has unique namespace keys. -/
theorem cycleLoop_keys_nodup (env : Env) (parent : ClusterExternalSecret)
    (store : Store) :
    (((cycleLoop env parent store).1).map Prod.fst).Nodup := by
  unfold cycleLoop
  apply syncLoop_keys_nodup
  unfold cycleRemoval
  rw [removeOldNamespaces_eq]
  exact removeLoop_keys_nodup env _ _ [] store (by simp)

/-- Claim C8: two cycle runs over the same matched namespace set (the two
lists being permutations of each other) with identical per-namespace
outcomes persist identical statuses; the persisted provisioned list is
always lexicographically sorted and the persisted failed list is always
sorted ascending by namespace name. -/
theorem c8_status_determinism (cfg : Nat) (env : Env)
    (parent : ClusterExternalSecret) (store : Store) (items2 : List String)
    (hf : env.fetch = FetchOutcome.found) (hs : env.selectorFails = false)
    (hl : env.listFails = false) (hnd : env.nsItems.Nodup)
    (hperm : List.Perm env.nsItems items2) :
    (Reconcile cfg { env with nsItems := items2 } parent store).status =
        (Reconcile cfg env parent store).status ∧
      ((Reconcile cfg env parent store).status.provisionedNamespaces).Sorted
        (fun a b => a ≤ b) ∧
      ((Reconcile cfg env parent store).status.failedNamespaces).Sorted
        (fun a b => a.ns ≤ b.ns) := by
  have hnd2 : items2.Nodup := hperm.nodup hnd
  rw [Reconcile_normal cfg env parent store hf hs hl]
  rw [Reconcile_normal cfg { env with nsItems := items2 } parent store hf hs hl]
  refine ⟨?_, sortStrings_sorted _, toNamespaceFailures_sorted _⟩
  obtain ⟨hfail1, hprov1, _⟩ := cycleLoop_spec env parent store hnd
  obtain ⟨hfail2, hprov2, _⟩ :=
    cycleLoop_spec { env with nsItems := items2 } parent store hnd2
  have hremEq : cycleRemoval { env with nsItems := items2 } parent store =
      cycleRemoval env parent store := by
    show removeOldNamespaces { env with nsItems := items2 } store items2
        (effectiveESName parent) parent.status.provisionedNamespaces =
      removeOldNamespaces env store env.nsItems (effectiveESName parent)
        parent.status.provisionedNamespaces
    exact removeOldNamespaces_congr { env with nsItems := items2 } env store items2
      env.nsItems (effectiveESName parent) parent.status.provisionedNamespaces
      rfl rfl (getRemovedNamespaces_perm items2 env.nsItems
        parent.status.provisionedNamespaces hperm.symm)
  have hsyncEq : (fun ns => match (syncOutcome { env with nsItems := items2 } parent
      (effectiveESName parent) ns (store ns (effectiveESName parent))).1 with
      | some r => some (ns, r)
      | none => none) =
    (fun ns => match (syncOutcome env parent
      (effectiveESName parent) ns (store ns (effectiveESName parent))).1 with
      | some r => some (ns, r)
      | none => none) := rfl
  have hsyncEqP : (fun ns => ((syncOutcome { env with nsItems := items2 } parent
      (effectiveESName parent) ns (store ns (effectiveESName parent))).1).isNone) =
    (fun ns => ((syncOutcome env parent
      (effectiveESName parent) ns (store ns (effectiveESName parent))).1).isNone) := rfl
  have hfail2' : (cycleLoop { env with nsItems := items2 } parent store).1 =
      (cycleRemoval env parent store).1 ++ items2.filterMap
        (fun ns => match (syncOutcome env parent (effectiveESName parent) ns
          (store ns (effectiveESName parent))).1 with
          | some r => some (ns, r)
          | none => none) := by
    rw [hfail2, hremEq, hsyncEq]
  have hprov2' : (cycleLoop { env with nsItems := items2 } parent store).2.1 =
      items2.filter (fun ns => ((syncOutcome env parent (effectiveESName parent) ns
        (store ns (effectiveESName parent))).1).isNone) := by
    rw [hprov2, hsyncEqP]
  have hfailPerm : List.Perm (cycleLoop { env with nsItems := items2 } parent store).1
      (cycleLoop env parent store).1 := by
    rw [hfail2', hfail1]
    exact List.Perm.append_left _ ((hperm.filterMap _).symm)
  have hprovPerm : List.Perm (cycleLoop { env with nsItems := items2 } parent store).2.1
      (cycleLoop env parent store).2.1 := by
    rw [hprov2', hprov1]
    exact (hperm.filter _).symm
  show cycleStatus { env with nsItems := items2 } parent store =
    cycleStatus env parent store
  unfold cycleStatus
  rw [sortStrings_perm_eq _ _ hprovPerm]
  rw [toNamespaceFailures_perm_eq _ _ hfailPerm
    (cycleLoop_keys_nodup { env with nsItems := items2 } parent store)]
  rw [newCESCondition_perm (cycleLoop { env with nsItems := items2 } parent store).1
    (cycleLoop env parent store).1 items2.length env.nsItems.length hfailPerm
    hperm.length_eq.symm]

theorem c8_status_determinism_witness :
    (Reconcile 5 { wEnv with nsItems := ["a"] } wParent wStore).status =
        (Reconcile 5 wEnv wParent wStore).status ∧
      ((Reconcile 5 wEnv wParent wStore).status.provisionedNamespaces).Sorted
        (fun a b => a ≤ b) ∧
      ((Reconcile 5 wEnv wParent wStore).status.failedNamespaces).Sorted
        (fun a b => a.ns ≤ b.ns) :=
  c8_status_determinism 5 wEnv wParent wStore ["a"] rfl rfl rfl (by decide)
    (List.Perm.refl _)

end CES
